import Mathlib

/-!
Verification of the reminder-scheduling core of the cortana bot.

The development shallowly embeds the schedule mini-language parser
(reminders.py / parser.py), the trigger builder, the scheduler-engine
bookkeeping and the reminder dispatcher, and proves the documented
properties about them.  Python strings are modelled as lists of
characters, with the relevant str operations (strip, upper, lower,
split, join, startswith) re-implemented character by character.
-/

/-! ## Character-level string helpers (Python str semantics) -/

/-- Whitespace as stripped by Python str.strip (common ASCII subset). -/
def isSpace (c : Char) : Bool :=
  c = ' ' || c = '\t' || c = '\n' || c = '\r' || c = '\x0b' || c = '\x0c'

/-- Drop leading whitespace (left part of str.strip). -/
def trimLeftL (l : List Char) : List Char := l.dropWhile isSpace

/-- Drop trailing whitespace (right part of str.strip). -/
def trimRightL (l : List Char) : List Char := (l.reverse.dropWhile isSpace).reverse

/-- Python str.strip on a character list. -/
def trimL (l : List Char) : List Char := trimLeftL (trimRightL l)

/-- Python str.startswith on character lists (subject, then pattern). -/
def startsL : List Char → List Char → Bool
  | _, [] => true
  | [], _ :: _ => false
  | c :: cs, p :: ps => if c = p then startsL cs ps else false

/-- Everything after the first occurrence of a separator:
Python s.split(sep, 1)[1] (empty result when the separator is absent). -/
def afterChar (sep : Char) : List Char → List Char
  | [] => []
  | c :: cs => if c = sep then cs else afterChar sep cs

/-- Python str.split(sep) for a one-character separator. -/
def splitChar (sep : Char) : List Char → List (List Char)
  | [] => [[]]
  | c :: cs =>
    if c = sep then [] :: splitChar sep cs
    else
      match splitChar sep cs with
      | [] => [[c]]
      | t :: ts => (c :: t) :: ts

/-- Python sep.join for a one-character separator. -/
def joinChar (sep : Char) : List (List Char) → List Char
  | [] => []
  | [t] => t
  | t :: ts => t ++ sep :: joinChar sep ts

/-- Numeric value of a decimal digit character. -/
def digitVal (c : Char) : Nat := c.toNat - 48

/-- Regex character class [0-9]. -/
def isDigitC (c : Char) : Bool := decide (48 ≤ c.toNat) && decide (c.toNat ≤ 57)

/-- Regex character class [0-5] (first minute digit). -/
def isMin10 (c : Char) : Bool := decide (48 ≤ c.toNat) && decide (c.toNat ≤ 53)

/-! ## parser.py : parse_hhmm -/

/-- Hour test for the two-digit case of the regex
([01]?\d|2[0-3]) from parser.parse_hhmm: either a leading 0/1 followed by
any digit, or a leading 2 followed by a digit in [0-3]. -/
def hourTwoOk (h1 h2 : Char) : Bool :=
  ((h1 = '0' || h1 = '1') && isDigitC h2) ||
    (h1 = '2' && (decide (48 ≤ h2.toNat) && decide (h2.toNat ≤ 51)))

/-- Core of parser.parse_hhmm: the anchored regex
^([01]?\d|2[0-3]):([0-5]\d)$ on an already-stripped character list.
The hour is one digit (the [01]? being absent) or two digits. -/
def hhmmCore : List Char → Option (Nat × Nat)
  | [h1, c, m1, m2] =>
    if c = ':' && isDigitC h1 && isMin10 m1 && isDigitC m2 then
      some (digitVal h1, 10 * digitVal m1 + digitVal m2)
    else none
  | [h1, h2, c, m1, m2] =>
    if c = ':' && hourTwoOk h1 h2 && (isMin10 m1 && isDigitC m2) then
      some (10 * digitVal h1 + digitVal h2, 10 * digitVal m1 + digitVal m2)
    else none
  | _ => none

/-- parser.parse_hhmm: strip the input, then match the HH:MM regex. -/
def parse_hhmm (s : String) : Option (Nat × Nat) := hhmmCore (trimL s.data)

/-! ## parse_yyyy_mm_dd (spec-modelled) -/

/-- Gregorian leap-year rule. -/
def isLeap (y : Nat) : Bool :=
  decide (y % 4 = 0) && (decide (y % 100 ≠ 0) || decide (y % 400 = 0))

/-- Days in a month of a given year. -/
def daysInMonth (y mo : Nat) : Nat :=
  if mo = 2 then (if isLeap y then 29 else 28)
  else if mo = 4 || mo = 6 || mo = 9 || mo = 11 then 30
  else 31

/-- Modelled from the spec: the date parser parse_yyyy_mm_dd is imported by
reminders.py from the helper-parsing module but its definition is not among
the given sources; per the spec the date field is parsed "via strict
calendar parse" of the exact YYYY-MM-DD form, accepting exactly the
syntactically valid calendar dates and returning nothing otherwise. -/
def parse_yyyy_mm_dd (s : String) : Option (Nat × Nat × Nat) :=
  match s.data with
  | [y1, y2, y3, y4, s1, m1, m2, s2, d1, d2] =>
    if s1 = '-' && s2 = '-' && isDigitC y1 && isDigitC y2 && isDigitC y3 &&
        isDigitC y4 && isDigitC m1 && isDigitC m2 && isDigitC d1 && isDigitC d2 then
      let y := 1000 * digitVal y1 + 100 * digitVal y2 + 10 * digitVal y3 + digitVal y4
      let mo := 10 * digitVal m1 + digitVal m2
      let d := 10 * digitVal d1 + digitVal d2
      if decide (1 ≤ y) && decide (1 ≤ mo) && decide (mo ≤ 12) && decide (1 ≤ d) &&
          decide (d ≤ daysInMonth y mo) then
        some (y, mo, d)
      else none
    else none
  | _ => none

/-! ## reminders.py : constants and error messages -/

def WEEKDAY_DOW : String := "mon,tue,wed,thu,fri"

def WEEKEND_DOW : String := "sat,sun"

def EVERYDAY_DOW : String := "mon,tue,wed,thu,fri,sat,sun"

/-- The DAY_TOKENS tuple of reminders.py, as character lists. -/
def DAY_TOKENS : List (List Char) :=
  [ "mon".data, "tue".data, "wed".data, "thu".data, "fri".data,
    "sat".data, "sun".data ]

def horaMsg : String := "Hora invalida. Usa HH:MM (ej: 08:00)"

def daysFmtMsg : String := "Formato DAYS invalido. Usa: DAYS@mon,tue@HH:MM"

def onceFmtMsg : String := "Formato ONCE invalido. Usa: ONCE@YYYY-MM-DD@HH:MM"

def fechaMsg : String := "Fecha invalida. Usa YYYY-MM-DD"

def daysEmptyMsg : String := "DAYS requiere al menos un dia (mon,tue,...)"

def diaMsgTail : String := ". Usa: mon, tue, wed, thu, fri, sat, sun"

def diaMsgHead : String := "Dia invalido "

/-- Error message for an unknown day token (quotes of the Python f-string dropped). -/
def diaMsg (t : List Char) : String := diaMsgHead ++ (⟨t⟩ : String) ++ diaMsgTail

def schedAllMsg : String :=
  "Schedule invalido. Soportados: WEEKDAY@HH:MM, WEEKEND@HH:MM, EVERYDAY@HH:MM, DAYS@mon,tue@HH:MM, ONCE@YYYY-MM-DD@HH:MM"

/-! ## reminders.py : parse_schedule -/

/-- The ParsedSchedule dataclass of reminders.py. -/
structure ParsedSchedule where
  kind : String
  dow : Option String
  date_once : Option String
  hhmm : String
deriving DecidableEq, Repr

def kindWEEKDAY : String := "WEEKDAY"

def kindWEEKEND : String := "WEEKEND"

def kindEVERYDAY : String := "EVERYDAY"

def kindDAYS : String := "DAYS"

def kindONCE : String := "ONCE"

def kWEEKDAY : List Char := "WEEKDAY@".data

def kWEEKEND : List Char := "WEEKEND@".data

def kEVERYDAY : List Char := "EVERYDAY@".data

def kDAILY : List Char := "DAILY@".data

def kDAYS : List Char := "DAYS@".data

def kONCE : List Char := "ONCE@".data

/-- The token list built inside reminders._validate_days_part:
[t.strip() for t in days_part.strip().lower().split(",") if t.strip()]. -/
def daysTokensOf (days_part : List Char) : List (List Char) :=
  ((splitChar ',' ((trimL days_part).map Char.toLower)).map trimL).filter
    (fun t => !t.isEmpty)

/-- reminders._validate_days_part: strip and lowercase the field, split on
commas, strip each piece dropping empties, require at least one token, reject
the first token outside DAY_TOKENS, and re-join the kept tokens with commas. -/
def _validate_days_part (days_part : List Char) : Except String (List Char) :=
  let tokens := daysTokensOf days_part
  if tokens.isEmpty then .error daysEmptyMsg
  else
    match tokens.find? (fun t => !(DAY_TOKENS.contains t)) with
    | some bad => .error (diaMsg bad)
    | none => .ok (joinChar ',' tokens)

/-- reminders.parse_schedule on the already-stripped character list: dispatch
on the upper-cased keyword prefix, then validate the @-separated fields in
source order.  An exception becomes an Except.error carrying its message. -/
def parseSched (s : List Char) : Except String ParsedSchedule :=
  if startsL (s.map Char.toUpper) kWEEKDAY then
    match parse_hhmm ⟨afterChar '@' s⟩ with
    | none => .error horaMsg
    | some _ => .ok ⟨kindWEEKDAY, some WEEKDAY_DOW, none, ⟨afterChar '@' s⟩⟩
  else if startsL (s.map Char.toUpper) kWEEKEND then
    match parse_hhmm ⟨afterChar '@' s⟩ with
    | none => .error horaMsg
    | some _ => .ok ⟨kindWEEKEND, some WEEKEND_DOW, none, ⟨afterChar '@' s⟩⟩
  else if startsL (s.map Char.toUpper) kEVERYDAY || startsL (s.map Char.toUpper) kDAILY then
    match parse_hhmm ⟨afterChar '@' s⟩ with
    | none => .error horaMsg
    | some _ => .ok ⟨kindEVERYDAY, some EVERYDAY_DOW, none, ⟨afterChar '@' s⟩⟩
  else if startsL (s.map Char.toUpper) kDAYS then
    match splitChar '@' s with
    | [_, dp, hm] =>
      match parse_hhmm ⟨hm⟩ with
      | none => .error horaMsg
      | some _ =>
        match _validate_days_part dp with
        | .error e => .error e
        | .ok dow => .ok ⟨kindDAYS, some ⟨dow⟩, none, ⟨hm⟩⟩
    | _ => .error daysFmtMsg
  else if startsL (s.map Char.toUpper) kONCE then
    match splitChar '@' s with
    | [_, dp, hm] =>
      match parse_yyyy_mm_dd ⟨dp⟩ with
      | none => .error fechaMsg
      | some _ =>
        match parse_hhmm ⟨hm⟩ with
        | none => .error horaMsg
        | some _ => .ok ⟨kindONCE, none, some ⟨dp⟩, ⟨hm⟩⟩
    | _ => .error onceFmtMsg
  else .error schedAllMsg

/-- reminders.parse_schedule: strip the raw schedule string, then dispatch. -/
def parse_schedule (schedule : String) : Except String ParsedSchedule :=
  parseSched (trimL schedule.data)

instance {ε α : Type} [DecidableEq ε] [DecidableEq α] : DecidableEq (Except ε α) := fun a b =>
  match a, b with
  | .ok x, .ok y =>
    if h : x = y then isTrue (by rw [h]) else isFalse (by intro hc; cases hc; exact h rfl)
  | .error x, .error y =>
    if h : x = y then isTrue (by rw [h]) else isFalse (by intro hc; cases hc; exact h rfl)
  | .ok _, .error _ => isFalse (by intro hc; cases hc)
  | .error _, .ok _ => isFalse (by intro hc; cases hc)

/-! ## reminders.py : timezone fallback and trigger builder -/

/-- A resolved timezone: a ZoneInfo for a known name, or the UTC fallback. -/
inductive TZ where
  | zone (name : String)
  | utc
deriving DecidableEq, Repr

/-- reminders.get_tz: try to resolve the zone name; on any failure fall back
to UTC.  Resolution success is an environment oracle (the tzdata base). -/
def get_tz (resolveOk : String → Bool) (tzname : String) : TZ :=
  if resolveOk tzname then TZ.zone tzname else TZ.utc

/-- A scheduler trigger: a cron rule (day-of-week field, hour, minute, zone)
or a one-shot date trigger at an absolute local timestamp. -/
inductive Trigger where
  | cron (day_of_week : Option String) (hour minute : Nat) (tz : TZ)
  | date (year month day hour minute : Nat) (tz : TZ)
deriving DecidableEq, Repr

/-- The four recurring kinds tested by reminders.build_trigger. -/
def recurringKinds : List String := [kindWEEKDAY, kindWEEKEND, kindDAYS, kindEVERYDAY]

/-- reminders.build_trigger.  The assert on parse_hhmm and the ValueError on a
bad ONCE date are modelled as Except.error. -/
def build_trigger (resolveOk : String → Bool) (parsed : ParsedSchedule)
    (tzname : String) : Except String Trigger :=
  let tz := get_tz resolveOk tzname
  match parse_hhmm parsed.hhmm with
  | none => .error "AssertionError: hhmm_parsed is not None"
  | some (hour, minute) =>
    if parsed.kind ∈ recurringKinds then
      .ok (.cron parsed.dow hour minute tz)
    else
      match parse_yyyy_mm_dd (parsed.date_once.getD "") with
      | none => .error "Fecha invalida para ONCE"
      | some (y, mo, d) => .ok (.date y mo d hour minute tz)

/-! ## Persistent records, engine jobs and bot state -/

/-- A row of the reminders table (the columns the scheduling core touches). -/
structure Reminder where
  id : Nat
  user_id : Nat
  name : String
  message : String
  schedule : String
  timezone : String
  active : Nat
  last_run_at : Option String
  next_run_at : Option String
deriving DecidableEq, Repr

/-- An installed engine job: the trigger plus the reminder id and chat id
captured by the runner closure in schedule_one. -/
structure Job where
  trigger : Trigger
  rid : Nat
  chat_id : Nat
deriving DecidableEq, Repr

/-- A delivered message, tagged with the reminder that produced it:
(reminder id, chat id, text). -/
abbrev Sent : Type := Nat × Nat × String

/-- The state the scheduling core acts on: the reminders table, the users
chat-id map, the engine job set (keyed by job id) and the delivery log. -/
structure BotState where
  reminders : List Reminder
  chats : List (Nat × Nat)
  jobs : List (String × Job)
  sent : List Sent
deriving DecidableEq, Repr

/-! ## db.py : the queries used by the scheduling core -/

/-- db.get_reminder_by_id: SELECT * FROM reminders WHERE id=? (first row). -/
def get_reminder_by_id (st : BotState) (rid : Nat) : Option Reminder :=
  st.reminders.find? (fun r => r.id == rid)

/-- db.get_reminder: SELECT * FROM reminders WHERE user_id=? AND id=?. -/
def get_reminder (st : BotState) (uid rid : Nat) : Option Reminder :=
  st.reminders.find? (fun r => r.user_id == uid && r.id == rid)

/-- db.get_user_chat_id: the chat id recorded for a user, if any. -/
def get_user_chat_id (st : BotState) (uid : Nat) : Option Nat :=
  (st.chats.find? (fun p => p.1 == uid)).map (fun p => p.2)

/-- db.update_reminder_active: UPDATE reminders SET active=? WHERE user_id=? AND id=?. -/
def update_reminder_active (rows : List Reminder) (uid rid a : Nat) : List Reminder :=
  rows.map (fun r => if r.user_id = uid ∧ r.id = rid then { r with active := a } else r)

/-- db.update_reminder_run_times: UPDATE reminders SET last_run_at=?, next_run_at=? WHERE id=?. -/
def update_reminder_run_times (rows : List Reminder) (rid : Nat)
    (last next : Option String) : List Reminder :=
  rows.map (fun r => if r.id = rid then { r with last_run_at := last, next_run_at := next } else r)

/-! ## reminders.py : scheduler engine bookkeeping -/

/-- reminders.job_id_for. -/
def job_id_for (user_id reminder_id : Nat) : String :=
  "rem_" ++ toString user_id ++ "_" ++ toString reminder_id

/-- The engine job under a key, if installed. -/
def jobLookup (jobs : List (String × Job)) (jid : String) : Option Job :=
  (jobs.find? (fun p => p.1 == jid)).map (fun p => p.2)

/-- scheduler.remove_job wrapped by unschedule_one (errors swallowed): drop
the job under the key, a no-op when absent. -/
def removeJob (jobs : List (String × Job)) (jid : String) : List (String × Job) :=
  jobs.filter (fun p => p.1 ≠ jid)

/-- scheduler.add_job with replace_existing=True: exactly one job remains
under the key afterwards. -/
def addJobReplace (jobs : List (String × Job)) (jid : String) (j : Job) :
    List (String × Job) :=
  removeJob jobs jid ++ [(jid, j)]

/-- Python reminder_row.get("timezone") or "America/Bogota" (missing/empty
falls back to the default zone name). -/
def tzOrDefault (tz : String) : String :=
  if tz = "" then "America/Bogota" else tz

/-- reminders.unschedule_one. -/
def unschedule_one (st : BotState) (user_id reminder_id : Nat) : BotState :=
  { st with jobs := removeJob st.jobs (job_id_for user_id reminder_id) }

/-- reminders.schedule_one: deactivated rows only get their job removed;
active rows have their schedule parsed, their trigger built and their job
installed (replacing any previous one), after which both run-time columns
are reset to NULL.  A ValueError escaping parse_schedule or build_trigger
propagates as Except.error. -/
def schedule_one (resolveOk : String → Bool) (st : BotState) (row : Reminder)
    (chat_id : Nat) : Except String BotState :=
  let jid := job_id_for row.user_id row.id
  if row.active ≠ 1 then
    .ok { st with jobs := removeJob st.jobs jid }
  else
    match parse_schedule row.schedule with
    | .error e => .error e
    | .ok parsed =>
      match build_trigger resolveOk parsed (tzOrDefault row.timezone) with
      | .error e => .error e
      | .ok trigger =>
        .ok { st with
                jobs := addJobReplace st.jobs jid ⟨trigger, row.id, chat_id⟩,
                reminders := update_reminder_run_times st.reminders row.id none none }

/-- reminders.schedule_all_active (the Boot Reconciler): snapshot the active
rows, then schedule each whose owner has a known (non-falsy) chat id. -/
def schedule_all_active (resolveOk : String → Bool) (st : BotState) :
    Except String BotState :=
  (st.reminders.filter (fun r => r.active == 1)).foldlM
    (fun acc r =>
      match get_user_chat_id acc r.user_id with
      | none => .ok acc
      | some chat => if chat = 0 then .ok acc else schedule_one resolveOk acc r chat)
    st

/-- The message text built by the dispatcher. -/
def reminderText (r : Reminder) : String := "⏰ " ++ r.name ++ ": " ++ r.message

/-- reminders._run_reminder_async (the dispatcher).  It re-reads the row and
does nothing if it is gone or inactive; then it sends the message (a delivery
failure raises, aborting the rest); then, for ONCE schedules, it deactivates
the row, removes the job and records last_run_at with next_run_at NULL, and
for recurring ones records last_run_at and the engine-reported next run time
(passed in as nextRun).  now is datetime.now().isoformat(). -/
def run_reminder (st : BotState) (reminder_id chat_id : Nat) (now : String)
    (deliveryOk : Bool) (nextRun : Option String) : BotState :=
  match get_reminder_by_id st reminder_id with
  | none => st
  | some row =>
    if row.active ≠ 1 then st
    else if !deliveryOk then st
    else
      let st1 := { st with sent := st.sent ++ [(row.id, chat_id, reminderText row)] }
      match parse_schedule row.schedule with
      | .error _ => st1
      | .ok parsed =>
        if parsed.kind = kindONCE then
          let st2 := { st1 with
            reminders := update_reminder_active st1.reminders row.user_id row.id 0 }
          let st3 := { st2 with
            jobs := removeJob st2.jobs (job_id_for row.user_id row.id) }
          { st3 with
            reminders := update_reminder_run_times st3.reminders row.id (some now) none }
        else
          { st1 with
            reminders := update_reminder_run_times st1.reminders row.id (some now) nextRun }

/-- main._rem_toggle after the owner/argument checks: flip the active column;
on activation re-read the row and schedule it, on deactivation remove the
job.  A missing reminder id leaves the state unchanged. -/
def rem_toggle (resolveOk : String → Bool) (st : BotState) (user_id rid : Nat)
    (active : Nat) (chat : Nat) : Except String BotState :=
  if !(st.reminders.any (fun r => r.user_id == user_id && r.id == rid)) then .ok st
  else
    let st1 := { st with reminders := update_reminder_active st.reminders user_id rid active }
    if active = 1 then
      match get_reminder st1 user_id rid with
      | none => .ok st1
      | some row => schedule_one resolveOk st1 row chat
    else
      .ok (unschedule_one st1 user_id rid)

/-! ## Autonomous system steps (restart, boot reconciliation, firings) -/

/-- The operations the system performs without owner intervention: a process
restart (the in-memory job set is lost), a Boot Reconciler run, and the
engine firing an installed job (with the delivery outcome and the engine's
reported next run time as environment inputs). -/
inductive Op where
  | restart
  | reconcile (resolveOk : String → Bool)
  | fire (jid : String) (now : String) (deliveryOk : Bool) (nextRun : Option String)

/-- One autonomous step.  Firing an uninstalled key does nothing; the fired
runner is the dispatcher on the reminder id and chat id the job captured. -/
def stepOp (st : BotState) : Op → Except String BotState
  | .restart => .ok { st with jobs := [] }
  | .reconcile resolveOk => schedule_all_active resolveOk st
  | .fire jid now deliveryOk nextRun =>
    match jobLookup st.jobs jid with
    | none => .ok st
    | some j => .ok (run_reminder st j.rid j.chat_id now deliveryOk nextRun)

/-- A run of autonomous steps. -/
def runOps (st : BotState) (ops : List Op) : Except String BotState :=
  ops.foldlM stepOp st

/-- The deliveries of a given reminder in the log. -/
def sentTo (st : BotState) (rid : Nat) : List Sent :=
  st.sent.filter (fun e => e.1 == rid)

/-! ## The day-token vocabulary and comma-joined day lists -/

/-- The seven weekday tokens, as strings. -/
def dayStrs : List String := ["mon", "tue", "wed", "thu", "fri", "sat", "sun"]

/-- The comma-joined form of a list of day tokens (the literal text the owner
writes between the two @ of a DAYS schedule). -/
def joinDays (ds : List String) : String := ⟨joinChar ',' (ds.map String.data)⟩

/-- The weekday tokens denoted by a day-of-week cron field. -/
def dowTokens (d : String) : List String :=
  (splitChar ',' d.data).map (fun l => (⟨l⟩ : String))

/-! ## Claim C7 : time-of-day parsing and zero padding -/

/-- Decimal digit character of a value below ten. -/
def digitChar10 (n : Nat) : Char :=
  match n with
  | 0 => '0' | 1 => '1' | 2 => '2' | 3 => '3' | 4 => '4'
  | 5 => '5' | 6 => '6' | 7 => '7' | 8 => '8' | _ => '9'

/-- The zero-padded two-digit decimal rendering of a value below a hundred. -/
def pad2 (n : Nat) : String := ⟨[digitChar10 (n / 10), digitChar10 (n % 10)]⟩

/-- A single decimal digit as a string. -/
def digitStr (n : Nat) : String := ⟨[digitChar10 n]⟩

/-! ## Concrete states for the witnesses -/

/-- A concrete active recurring reminder row. -/
def wRem : Reminder :=
  ⟨1, 7, "agua", "toma agua", "EVERYDAY@08:00", "America/Bogota", 1,
    some "2020-01-01T00:00:00", some "2020-01-02T08:00:00"⟩

/-- A concrete store holding that one reminder and its owner chat. -/
def wSt : BotState := ⟨[wRem], [(7, 55)], [], []⟩

/-- The same row switched off. -/
def wRemOff : Reminder :=
  ⟨1, 7, "agua", "toma agua", "EVERYDAY@08:00", "America/Bogota", 0,
    some "2020-01-01T00:00:00", some "2020-01-02T08:00:00"⟩

/-! ## Claim C3 : a fired one-shot reminder never fires again -/

/-- Every row of a given reminder id is switched off. -/
def inactiveFor (st : BotState) (rid : Nat) : Prop :=
  ∀ r ∈ st.reminders, r.id = rid → r.active ≠ 1

/-- The state after scheduling the concrete active reminder. -/
def wStAfter : BotState :=
  ⟨[⟨1, 7, "agua", "toma agua", "EVERYDAY@08:00", "America/Bogota", 1, none, none⟩],
   [(7, 55)],
   [("rem_7_1", ⟨.cron (some EVERYDAY_DOW) 8 0 (.zone "America/Bogota"), 1, 55⟩)],
   []⟩

/-- A concrete active ONCE reminder with its installed job. -/
def wRemOnce : Reminder :=
  ⟨2, 7, "cita", "ir al medico", "ONCE@2026-01-20@09:00", "America/Bogota", 1,
    none, some "2026-01-20T09:00:00"⟩

def wStOnce : BotState :=
  ⟨[wRemOnce], [(7, 55)],
   [("rem_7_2", ⟨.date 2026 1 20 9 0 (.zone "America/Bogota"), 2, 55⟩)], []⟩

/-- The concrete state after the ONCE reminder fired once. -/
def wStOnceAfter : BotState :=
  ⟨[⟨2, 7, "cita", "ir al medico", "ONCE@2026-01-20@09:00", "America/Bogota", 0,
      some "2026-01-20T09:00:05", none⟩],
   [(7, 55)], [], [(2, 55, "⏰ cita: ir al medico")]⟩

example : parse_hhmm "08:00" = some (8, 0) := by decide

example : parse_hhmm "8:00" = some (8, 0) := by decide

example : parse_hhmm "23:59" = some (23, 59) := by decide

example : parse_hhmm "24:00" = none := by decide

example : parse_hhmm "19:60" = none := by decide

example : parse_hhmm " 07:30 " = some (7, 30) := by decide

example : parse_yyyy_mm_dd "2026-01-20" = some (2026, 1, 20) := by decide

example : parse_yyyy_mm_dd "2026-13-01" = none := by decide

example : parse_yyyy_mm_dd "2024-02-29" = some (2024, 2, 29) := by decide

example : parse_yyyy_mm_dd "2025-02-29" = none := by decide

example :
    parse_schedule "WEEKDAY@08:00" =
      .ok ⟨kindWEEKDAY, some WEEKDAY_DOW, none, "08:00"⟩ := by decide

example :
    parse_schedule "days@tue,fri@20:00" =
      .ok ⟨kindDAYS, some "tue,fri", none, "20:00"⟩ := by decide

example :
    parse_schedule "DAYS@mon,mon@08:00" =
      .ok ⟨kindDAYS, some "mon,mon", none, "08:00"⟩ := by decide

example :
    parse_schedule "ONCE@2026-01-20@09:00" =
      .ok ⟨kindONCE, none, some "2026-01-20", "09:00"⟩ := by decide

example : parse_schedule "DAILY@07:15" = parse_schedule "EVERYDAY@07:15" := by decide

example : parse_schedule "nonsense" = .error schedAllMsg := by decide

example : parse_schedule "DAYS@xyz@08:00" = .error (diaMsg "xyz".data) := by decide

example : parse_schedule "DAYS@tue" = .error daysFmtMsg := by decide

example : parse_schedule "ONCE@2026-13-01@08:00" = .error fechaMsg := by decide

example : parse_schedule "WEEKDAY@25:00" = .error horaMsg := by decide

/-! ## Lemmas about the character-level helpers -/

theorem startsL_append_self (P R : List Char) : startsL (P ++ R) P = true := by
  induction P with
  | nil => simp [startsL]
  | cons p P ih => simp [startsL, ih]

theorem dropWhile_idem (p : Char → Bool) (l : List Char) :
    List.dropWhile p (List.dropWhile p l) = List.dropWhile p l := by
  induction l with
  | nil => rfl
  | cons c l ih => by_cases h : p c <;> simp [List.dropWhile_cons, h, ih]

theorem trimLeftL_cons (c : Char) (l : List Char) (hc : isSpace c = false) :
    trimLeftL (c :: l) = c :: l := by
  simp [trimLeftL, List.dropWhile_cons, hc]

theorem trimRightL_append_cons (A : List Char) (c : Char) (R : List Char)
    (hc : isSpace c = false) :
    trimRightL (A ++ c :: R) = A ++ c :: trimRightL R := by
  unfold trimRightL
  rw [List.reverse_append, List.reverse_cons, List.append_assoc, List.dropWhile_append]
  split
  · next h =>
    have h0 : List.dropWhile isSpace R.reverse = [] := by
      simpa [List.isEmpty_iff] using h
    simp [List.dropWhile_cons, hc, h0]
  · next h =>
    simp [List.dropWhile_cons, hc]

theorem trimRightL_idem (l : List Char) : trimRightL (trimRightL l) = trimRightL l := by
  simp [trimRightL, dropWhile_idem]

theorem trimL_trimRightL (l : List Char) : trimL (trimRightL l) = trimL l := by
  unfold trimL
  rw [trimRightL_idem]

theorem parse_hhmm_mk (l : List Char) : parse_hhmm ⟨l⟩ = hhmmCore (trimL l) := rfl

theorem parse_hhmm_trimRight (t : String) :
    parse_hhmm ⟨trimRightL t.data⟩ = parse_hhmm t := by
  rw [parse_hhmm_mk, trimL_trimRightL]
  rfl

/-- Stripping a keyword-prefixed string: a prefix that starts and ends with
non-whitespace passes through str.strip, which then only trims the tail. -/
theorem trimL_key (a : Char) (A : List Char) (c : Char) (R : List Char)
    (ha : isSpace a = false) (hc : isSpace c = false) :
    trimL (a :: (A ++ c :: R)) = a :: (A ++ c :: trimRightL R) := by
  unfold trimL
  rw [show a :: (A ++ c :: R) = (a :: A) ++ c :: R from rfl,
    trimRightL_append_cons _ _ _ hc]
  exact trimLeftL_cons _ _ ha

theorem trimL_kWEEKDAY (R : List Char) :
    trimL (kWEEKDAY ++ R) = kWEEKDAY ++ trimRightL R :=
  trimL_key 'W' "EEKDAY".data '@' R (by decide) (by decide)

theorem trimL_kWEEKEND (R : List Char) :
    trimL (kWEEKEND ++ R) = kWEEKEND ++ trimRightL R :=
  trimL_key 'W' "EEKEND".data '@' R (by decide) (by decide)

theorem trimL_kEVERYDAY (R : List Char) :
    trimL (kEVERYDAY ++ R) = kEVERYDAY ++ trimRightL R :=
  trimL_key 'E' "VERYDAY".data '@' R (by decide) (by decide)

theorem trimL_kDAILY (R : List Char) :
    trimL (kDAILY ++ R) = kDAILY ++ trimRightL R :=
  trimL_key 'D' "AILY".data '@' R (by decide) (by decide)

theorem trimL_kDAYS (R : List Char) :
    trimL (kDAYS ++ R) = kDAYS ++ trimRightL R :=
  trimL_key 'D' "AYS".data '@' R (by decide) (by decide)

theorem trimL_kONCE (R : List Char) :
    trimL (kONCE ++ R) = kONCE ++ trimRightL R :=
  trimL_key 'O' "NCE".data '@' R (by decide) (by decide)

theorem afterChar_append (A : List Char) (c : Char) (B : List Char) (hA : c ∉ A) :
    afterChar c (A ++ c :: B) = B := by
  induction A with
  | nil => simp [afterChar]
  | cons a A ih =>
    have ha : ¬(a = c) := fun h => hA (by simp [h])
    simp only [List.cons_append, afterChar, if_neg ha]
    exact ih (fun h => hA (List.mem_cons_of_mem _ h))

theorem splitChar_ne_nil (sep : Char) (l : List Char) : splitChar sep l ≠ [] := by
  induction l with
  | nil => simp [splitChar]
  | cons c cs ih =>
    by_cases h : c = sep
    · simp [splitChar, h]
    · simp only [splitChar, if_neg h]
      cases hs : splitChar sep cs with
      | nil => simp
      | cons t ts => simp

theorem splitChar_append_cons (A : List Char) (sep : Char) (B : List Char)
    (hA : sep ∉ A) :
    splitChar sep (A ++ sep :: B) = A :: splitChar sep B := by
  induction A with
  | nil => simp [splitChar]
  | cons a A ih =>
    have ha : ¬(a = sep) := fun h => hA (by simp [h])
    simp only [List.cons_append, splitChar, if_neg ha, List.append_eq]
    rw [ih (fun h => hA (List.mem_cons_of_mem _ h))]

theorem splitChar_no_sep (sep : Char) (A : List Char) (hA : sep ∉ A) :
    splitChar sep A = [A] := by
  induction A with
  | nil => simp [splitChar]
  | cons a A ih =>
    have ha : ¬(a = sep) := fun h => hA (by simp [h])
    simp only [splitChar, if_neg ha]
    rw [ih (fun h => hA (List.mem_cons_of_mem _ h))]

theorem mem_joinChar {c sep : Char} {ts : List (List Char)}
    (h : c ∈ joinChar sep ts) : c = sep ∨ ∃ t ∈ ts, c ∈ t := by
  induction ts with
  | nil => simp [joinChar] at h
  | cons t ts ih =>
    cases ts with
    | nil =>
      right
      exact ⟨t, by simp, by simpa [joinChar] using h⟩
    | cons t2 ts2 =>
      rw [show joinChar sep (t :: t2 :: ts2) = t ++ sep :: joinChar sep (t2 :: ts2) from rfl] at h
      rcases List.mem_append.mp h with h1 | h1
      · exact Or.inr ⟨t, by simp, h1⟩
      · rcases List.mem_cons.mp h1 with h2 | h2
        · exact Or.inl h2
        · rcases ih h2 with h3 | ⟨u, hu, hcu⟩
          · exact Or.inl h3
          · exact Or.inr ⟨u, List.mem_cons_of_mem _ hu, hcu⟩

theorem splitChar_joinChar (sep : Char) (ts : List (List Char)) (hne : ts ≠ [])
    (h : ∀ t ∈ ts, sep ∉ t) :
    splitChar sep (joinChar sep ts) = ts := by
  induction ts with
  | nil => cases hne rfl
  | cons t ts ih =>
    cases ts with
    | nil =>
      rw [show joinChar sep [t] = t from rfl]
      exact splitChar_no_sep sep t (h t (by simp))
    | cons t2 ts2 =>
      rw [show joinChar sep (t :: t2 :: ts2) = t ++ sep :: joinChar sep (t2 :: ts2) from rfl,
        splitChar_append_cons _ _ _ (h t (by simp)),
        ih (by simp) (fun x hx => h x (List.mem_cons_of_mem _ hx))]

theorem mem_of_mem_trimRightL {c : Char} {l : List Char} (h : c ∈ trimRightL l) :
    c ∈ l := by
  unfold trimRightL at h
  rw [List.mem_reverse] at h
  have := (List.dropWhile_sublist isSpace (l := l.reverse)).mem h
  exact List.mem_reverse.mp this

theorem dropWhile_eq_self_of (p : Char → Bool) (l : List Char)
    (h : ∀ c ∈ l, p c = false) : List.dropWhile p l = l := by
  cases l with
  | nil => rfl
  | cons c l => simp [List.dropWhile_cons, h c (by simp)]

theorem trimL_eq_self (l : List Char) (h : ∀ c ∈ l, isSpace c = false) :
    trimL l = l := by
  unfold trimL trimRightL trimLeftL
  rw [dropWhile_eq_self_of _ _ (fun c hc => h c (List.mem_reverse.mp hc)),
    List.reverse_reverse, dropWhile_eq_self_of _ _ h]

/-! ## Evaluating parse_schedule branch by branch -/

theorem afterChar_kWEEKDAY (R : List Char) : afterChar '@' (kWEEKDAY ++ R) = R := by
  rw [show kWEEKDAY ++ R = "WEEKDAY".data ++ '@' :: R from rfl]
  exact afterChar_append _ _ _ (by decide)

theorem afterChar_kWEEKEND (R : List Char) : afterChar '@' (kWEEKEND ++ R) = R := by
  rw [show kWEEKEND ++ R = "WEEKEND".data ++ '@' :: R from rfl]
  exact afterChar_append _ _ _ (by decide)

theorem afterChar_kEVERYDAY (R : List Char) : afterChar '@' (kEVERYDAY ++ R) = R := by
  rw [show kEVERYDAY ++ R = "EVERYDAY".data ++ '@' :: R from rfl]
  exact afterChar_append _ _ _ (by decide)

theorem afterChar_kDAILY (R : List Char) : afterChar '@' (kDAILY ++ R) = R := by
  rw [show kDAILY ++ R = "DAILY".data ++ '@' :: R from rfl]
  exact afterChar_append _ _ _ (by decide)

theorem splitChar_kDAYS (R : List Char) :
    splitChar '@' (kDAYS ++ R) = "DAYS".data :: splitChar '@' R := by
  rw [show kDAYS ++ R = "DAYS".data ++ '@' :: R from rfl]
  exact splitChar_append_cons _ _ _ (by decide)

theorem splitChar_kONCE (R : List Char) :
    splitChar '@' (kONCE ++ R) = "ONCE".data :: splitChar '@' R := by
  rw [show kONCE ++ R = "ONCE".data ++ '@' :: R from rfl]
  exact splitChar_append_cons _ _ _ (by decide)

theorem parseSched_kWEEKDAY (R : List Char) :
    parseSched (kWEEKDAY ++ R) =
      match parse_hhmm ⟨R⟩ with
      | none => .error horaMsg
      | some _ => .ok ⟨kindWEEKDAY, some WEEKDAY_DOW, none, ⟨R⟩⟩ := by
  unfold parseSched
  rw [List.map_append, show kWEEKDAY.map Char.toUpper = kWEEKDAY from by decide]
  rw [if_pos (by exact_mod_cast startsL_append_self kWEEKDAY (R.map Char.toUpper))]
  rw [afterChar_kWEEKDAY]

theorem parseSched_kWEEKEND (R : List Char) :
    parseSched (kWEEKEND ++ R) =
      match parse_hhmm ⟨R⟩ with
      | none => .error horaMsg
      | some _ => .ok ⟨kindWEEKEND, some WEEKEND_DOW, none, ⟨R⟩⟩ := by
  unfold parseSched
  rw [List.map_append, show kWEEKEND.map Char.toUpper = kWEEKEND from by decide]
  rw [if_neg (by simp [startsL, kWEEKEND, kWEEKDAY] :
    ¬ (startsL (kWEEKEND ++ R.map Char.toUpper) kWEEKDAY = true))]
  rw [if_pos (by exact_mod_cast startsL_append_self kWEEKEND (R.map Char.toUpper))]
  rw [afterChar_kWEEKEND]

theorem parseSched_kEVERYDAY (R : List Char) :
    parseSched (kEVERYDAY ++ R) =
      match parse_hhmm ⟨R⟩ with
      | none => .error horaMsg
      | some _ => .ok ⟨kindEVERYDAY, some EVERYDAY_DOW, none, ⟨R⟩⟩ := by
  unfold parseSched
  rw [List.map_append, show kEVERYDAY.map Char.toUpper = kEVERYDAY from by decide]
  rw [if_neg (by simp [startsL, kEVERYDAY, kWEEKDAY] :
    ¬ (startsL (kEVERYDAY ++ R.map Char.toUpper) kWEEKDAY = true))]
  rw [if_neg (by simp [startsL, kEVERYDAY, kWEEKEND] :
    ¬ (startsL (kEVERYDAY ++ R.map Char.toUpper) kWEEKEND = true))]
  rw [if_pos (by simp [startsL_append_self] :
    ((startsL (kEVERYDAY ++ R.map Char.toUpper) kEVERYDAY ||
      startsL (kEVERYDAY ++ R.map Char.toUpper) kDAILY) = true))]
  rw [afterChar_kEVERYDAY]

theorem parseSched_kDAILY (R : List Char) :
    parseSched (kDAILY ++ R) =
      match parse_hhmm ⟨R⟩ with
      | none => .error horaMsg
      | some _ => .ok ⟨kindEVERYDAY, some EVERYDAY_DOW, none, ⟨R⟩⟩ := by
  unfold parseSched
  rw [List.map_append, show kDAILY.map Char.toUpper = kDAILY from by decide]
  rw [if_neg (by simp [startsL, kDAILY, kWEEKDAY] :
    ¬ (startsL (kDAILY ++ R.map Char.toUpper) kWEEKDAY = true))]
  rw [if_neg (by simp [startsL, kDAILY, kWEEKEND] :
    ¬ (startsL (kDAILY ++ R.map Char.toUpper) kWEEKEND = true))]
  rw [if_pos (by simp [startsL, kDAILY, kEVERYDAY, startsL_append_self] :
    ((startsL (kDAILY ++ R.map Char.toUpper) kEVERYDAY ||
      startsL (kDAILY ++ R.map Char.toUpper) kDAILY) = true))]
  rw [afterChar_kDAILY]

theorem parseSched_kDAYS (R : List Char) :
    parseSched (kDAYS ++ R) =
      (match splitChar '@' (kDAYS ++ R) with
       | [_, dp, hm] =>
         match parse_hhmm ⟨hm⟩ with
         | none => .error horaMsg
         | some _ =>
           match _validate_days_part dp with
           | .error e => .error e
           | .ok dow => .ok ⟨kindDAYS, some ⟨dow⟩, none, ⟨hm⟩⟩
       | _ => .error daysFmtMsg) := by
  unfold parseSched
  rw [List.map_append, show kDAYS.map Char.toUpper = kDAYS from by decide]
  rw [if_neg (by simp [startsL, kDAYS, kWEEKDAY] :
    ¬ (startsL (kDAYS ++ R.map Char.toUpper) kWEEKDAY = true))]
  rw [if_neg (by simp [startsL, kDAYS, kWEEKEND] :
    ¬ (startsL (kDAYS ++ R.map Char.toUpper) kWEEKEND = true))]
  rw [if_neg (by simp [startsL, kDAYS, kEVERYDAY, kDAILY] :
    ¬ ((startsL (kDAYS ++ R.map Char.toUpper) kEVERYDAY ||
        startsL (kDAYS ++ R.map Char.toUpper) kDAILY) = true))]
  rw [if_pos (by exact_mod_cast startsL_append_self kDAYS (R.map Char.toUpper))]

theorem parseSched_kONCE (R : List Char) :
    parseSched (kONCE ++ R) =
      (match splitChar '@' (kONCE ++ R) with
       | [_, dp, hm] =>
         match parse_yyyy_mm_dd ⟨dp⟩ with
         | none => .error fechaMsg
         | some _ =>
           match parse_hhmm ⟨hm⟩ with
           | none => .error horaMsg
           | some _ => .ok ⟨kindONCE, none, some ⟨dp⟩, ⟨hm⟩⟩
       | _ => .error onceFmtMsg) := by
  unfold parseSched
  rw [List.map_append, show kONCE.map Char.toUpper = kONCE from by decide]
  rw [if_neg (by simp [startsL, kONCE, kWEEKDAY] :
    ¬ (startsL (kONCE ++ R.map Char.toUpper) kWEEKDAY = true))]
  rw [if_neg (by simp [startsL, kONCE, kWEEKEND] :
    ¬ (startsL (kONCE ++ R.map Char.toUpper) kWEEKEND = true))]
  rw [if_neg (by simp [startsL, kONCE, kEVERYDAY, kDAILY] :
    ¬ ((startsL (kONCE ++ R.map Char.toUpper) kEVERYDAY ||
        startsL (kONCE ++ R.map Char.toUpper) kDAILY) = true))]
  rw [if_neg (by simp [startsL, kONCE, kDAYS] :
    ¬ (startsL (kONCE ++ R.map Char.toUpper) kDAYS = true))]
  rw [if_pos (by exact_mod_cast startsL_append_self kONCE (R.map Char.toUpper))]

/-! ## String-level evaluation of the simple keyword forms -/

theorem parse_schedule_WEEKDAY_eval (t : String) :
    parse_schedule ("WEEKDAY@" ++ t) =
      match parse_hhmm t with
      | none => .error horaMsg
      | some _ => .ok ⟨kindWEEKDAY, some WEEKDAY_DOW, none, ⟨trimRightL t.data⟩⟩ := by
  unfold parse_schedule
  rw [show ("WEEKDAY@" ++ t).data = kWEEKDAY ++ t.data from rfl, trimL_kWEEKDAY,
    parseSched_kWEEKDAY, parse_hhmm_trimRight]

theorem parse_schedule_WEEKEND_eval (t : String) :
    parse_schedule ("WEEKEND@" ++ t) =
      match parse_hhmm t with
      | none => .error horaMsg
      | some _ => .ok ⟨kindWEEKEND, some WEEKEND_DOW, none, ⟨trimRightL t.data⟩⟩ := by
  unfold parse_schedule
  rw [show ("WEEKEND@" ++ t).data = kWEEKEND ++ t.data from rfl, trimL_kWEEKEND,
    parseSched_kWEEKEND, parse_hhmm_trimRight]

theorem parse_schedule_EVERYDAY_eval (t : String) :
    parse_schedule ("EVERYDAY@" ++ t) =
      match parse_hhmm t with
      | none => .error horaMsg
      | some _ => .ok ⟨kindEVERYDAY, some EVERYDAY_DOW, none, ⟨trimRightL t.data⟩⟩ := by
  unfold parse_schedule
  rw [show ("EVERYDAY@" ++ t).data = kEVERYDAY ++ t.data from rfl, trimL_kEVERYDAY,
    parseSched_kEVERYDAY, parse_hhmm_trimRight]

theorem parse_schedule_DAILY_eval (t : String) :
    parse_schedule ("DAILY@" ++ t) =
      match parse_hhmm t with
      | none => .error horaMsg
      | some _ => .ok ⟨kindEVERYDAY, some EVERYDAY_DOW, none, ⟨trimRightL t.data⟩⟩ := by
  unfold parse_schedule
  rw [show ("DAILY@" ++ t).data = kDAILY ++ t.data from rfl, trimL_kDAILY,
    parseSched_kDAILY, parse_hhmm_trimRight]

/-! ## Character shapes of valid time and date fields -/

/-- Every character of a string the HH:MM regex accepts is a digit or the colon. -/
theorem hhmm_chars {l : List Char} {hm : Nat × Nat} (h : hhmmCore l = some hm) :
    ∀ c ∈ l, 48 ≤ c.toNat ∧ c.toNat ≤ 58 := by
  unfold hhmmCore at h
  split at h
  · next h1 c m1 m2 =>
    split at h
    · next hc =>
      simp only [Bool.and_eq_true, decide_eq_true_eq, isDigitC, isMin10] at hc
      obtain ⟨⟨⟨hcol, hd1⟩, hm1⟩, hm2⟩ := hc
      intro x hx
      rcases hx with _ | ⟨_, _ | ⟨_, _ | ⟨_, hx⟩⟩⟩
      · omega
      · subst hcol; exact ⟨by decide, by decide⟩
      · omega
      · rcases hx with _ | ⟨_, hx⟩
        · omega
        · cases hx
    · cases h
  · next h1 h2 c m1 m2 =>
    split at h
    · next hc =>
      simp only [Bool.and_eq_true, Bool.or_eq_true, decide_eq_true_eq, isDigitC, isMin10,
        hourTwoOk] at hc
      obtain ⟨⟨hcol, hhour⟩, hm1, hm2⟩ := hc
      have hh1 : 48 ≤ h1.toNat ∧ h1.toNat ≤ 57 := by
        rcases hhour with ⟨hd, _⟩ | ⟨hd, _⟩
        · rcases hd with hd | hd <;> subst hd <;> exact ⟨by decide, by decide⟩
        · subst hd; exact ⟨by decide, by decide⟩
      have hh2 : 48 ≤ h2.toNat ∧ h2.toNat ≤ 57 := by
        rcases hhour with ⟨_, hd⟩ | ⟨_, hd⟩
        · omega
        · omega
      intro x hx
      rcases hx with _ | ⟨_, _ | ⟨_, _ | ⟨_, hx⟩⟩⟩
      · omega
      · omega
      · subst hcol; exact ⟨by decide, by decide⟩
      · rcases hx with _ | ⟨_, hx⟩
        · omega
        · rcases hx with _ | ⟨_, hx⟩
          · omega
          · cases hx
    · cases h
  · cases h

/-- The characters of a string `parse_hhmm` accepts, after stripping. -/
theorem parse_hhmm_chars {t : String} {hm : Nat × Nat} (h : parse_hhmm t = some hm) :
    ∀ c ∈ trimL t.data, 48 ≤ c.toNat ∧ c.toNat ≤ 58 :=
  hhmm_chars h

/-- Splitting an element of the right-trimmed field: a space, or a character
of the fully stripped field. -/
theorem mem_trimRightL_cases {c : Char} {l : List Char} (h : c ∈ trimRightL l) :
    isSpace c = true ∨ c ∈ trimL l := by
  have hsplit := List.takeWhile_append_dropWhile (p := isSpace) (l := trimRightL l)
  rw [← hsplit] at h
  rcases List.mem_append.mp h with h1 | h1
  · exact Or.inl (List.mem_takeWhile_imp h1)
  · exact Or.inr h1

/-- A valid time field contains no @ even before stripping its left spaces. -/
theorem at_notin_trimRight_of_hhmm {t : String} {hm : Nat × Nat}
    (h : parse_hhmm t = some hm) : '@' ∉ trimRightL t.data := by
  intro hmem
  rcases mem_trimRightL_cases hmem with h1 | h1
  · exact absurd h1 (by decide)
  · exact absurd (parse_hhmm_chars h _ h1).2 (by decide)

/-- A character at or beyond the dash is none of the stripped whitespace characters. -/
theorem isSpace_eq_false_of_ge {c : Char} (h : 45 ≤ c.toNat) : isSpace c = false := by
  simp only [isSpace, Bool.or_eq_false_iff, decide_eq_false_iff_not]
  refine ⟨⟨⟨⟨⟨?_, ?_⟩, ?_⟩, ?_⟩, ?_⟩, ?_⟩ <;>
    (intro hceq; subst hceq; exact absurd h (by decide))

/-- Every character of a string the strict date parser accepts is a digit or
the dash. -/
theorem date_chars {d : String} {v : Nat × Nat × Nat} (h : parse_yyyy_mm_dd d = some v) :
    ∀ c ∈ d.data, 45 ≤ c.toNat ∧ c.toNat ≤ 57 := by
  unfold parse_yyyy_mm_dd at h
  split at h
  · rename_i y1 y2 y3 y4 s1 m1 m2 s2 d1 d2 heq
    rw [heq]
    split at h
    · rename_i hc
      simp only [Bool.and_eq_true, decide_eq_true_eq, isDigitC] at hc
      obtain ⟨⟨⟨⟨⟨⟨⟨⟨⟨hs1, hs2⟩, hy1⟩, hy2⟩, hy3⟩, hy4⟩, hm1⟩, hm2⟩, hd1⟩, hd2⟩ := hc
      intro x hx
      rcases hx with _ | ⟨_, _ | ⟨_, _ | ⟨_, _ | ⟨_, hx⟩⟩⟩⟩
      · omega
      · omega
      · omega
      · omega
      · rcases hx with _ | ⟨_, hx⟩
        · subst hs1; exact ⟨by decide, by decide⟩
        · rcases hx with _ | ⟨_, hx⟩
          · omega
          · rcases hx with _ | ⟨_, hx⟩
            · omega
            · rcases hx with _ | ⟨_, hx⟩
              · subst hs2; exact ⟨by decide, by decide⟩
              · rcases hx with _ | ⟨_, hx⟩
                · omega
                · rcases hx with _ | ⟨_, hx⟩
                  · omega
                  · cases hx
    · cases h
  · cases h

/-- A valid date field is already stripped and contains no @. -/
theorem date_clean {d : String} {v : Nat × Nat × Nat} (h : parse_yyyy_mm_dd d = some v) :
    trimL d.data = d.data ∧ '@' ∉ d.data := by
  constructor
  · exact trimL_eq_self _ (fun c hc => isSpace_eq_false_of_ge (date_chars h c hc).1)
  · intro hmem
    exact absurd (date_chars h _ hmem).2 (by decide)

theorem map_eq_self_of {α : Type} (f : α → α) (l : List α) (h : ∀ x ∈ l, f x = x) :
    l.map f = l := by
  induction l with
  | nil => rfl
  | cons x l ih => simp [h x (by simp), ih (fun y hy => h y (List.mem_cons_of_mem _ hy))]

/-- Facts about each individual day token. -/
theorem day_token_facts {d : String} (h : d ∈ dayStrs) :
    ',' ∉ d.data ∧ '@' ∉ d.data ∧ (∀ c ∈ d.data, isSpace c = false) ∧
      d.data.map Char.toLower = d.data ∧ trimL d.data = d.data ∧
      d.data ≠ [] ∧ d.data ∈ DAY_TOKENS := by
  simp only [dayStrs, List.mem_cons, List.not_mem_nil, or_false] at h
  rcases h with h | h | h | h | h | h | h <;> subst h <;> decide

theorem joinChar_map (f : Char → Char) (sep : Char) (ts : List (List Char))
    (hsep : f sep = sep) (h : ∀ t ∈ ts, t.map f = t) :
    (joinChar sep ts).map f = joinChar sep ts := by
  induction ts with
  | nil => rfl
  | cons t ts ih =>
    cases ts with
    | nil => simpa [joinChar] using h t (by simp)
    | cons t2 ts2 =>
      rw [show joinChar sep (t :: t2 :: ts2) = t ++ sep :: joinChar sep (t2 :: ts2) from rfl]
      rw [List.map_append, h t (by simp), List.map_cons, hsep,
        ih (fun x hx => h x (List.mem_cons_of_mem _ hx))]

/-- The joined day list evaluates through _validate_days_part unchanged:
its token list is exactly the listed days and validation re-joins them. -/
theorem daysTokensOf_joinDays {ds : List String} (hds : ∀ d ∈ ds, d ∈ dayStrs) :
    daysTokensOf (joinChar ',' (ds.map String.data)) = ds.map String.data := by
  have hmem : ∀ l ∈ ds.map String.data, ∃ d ∈ ds, l = d.data := by
    intro l hl
    rcases List.mem_map.mp hl with ⟨d, hd, rfl⟩
    exact ⟨d, hd, rfl⟩
  have hnospace : ∀ c ∈ joinChar ',' (ds.map String.data), isSpace c = false := by
    intro c hc
    rcases mem_joinChar hc with rfl | ⟨t, ht, hct⟩
    · decide
    · rcases hmem t ht with ⟨d, hd, rfl⟩
      exact (day_token_facts (hds d hd)).2.2.1 c hct
  have hlower : (joinChar ',' (ds.map String.data)).map Char.toLower =
      joinChar ',' (ds.map String.data) := by
    refine joinChar_map _ _ _ (by decide) (fun t ht => ?_)
    rcases hmem t ht with ⟨d, hd, rfl⟩
    exact (day_token_facts (hds d hd)).2.2.2.1
  cases hds0 : ds with
  | nil => decide
  | cons d0 ds0 =>
    subst hds0
    have hsplit : splitChar ',' (joinChar ',' ((d0 :: ds0).map String.data)) =
        (d0 :: ds0).map String.data := by
      refine splitChar_joinChar _ _ (by simp) (fun t ht => ?_)
      rcases hmem t ht with ⟨d, hd, rfl⟩
      exact (day_token_facts (hds d hd)).1
    unfold daysTokensOf
    rw [trimL_eq_self _ hnospace, hlower, hsplit]
    rw [map_eq_self_of _ _ (fun t ht => by
      rcases hmem t ht with ⟨d, hd, rfl⟩
      exact (day_token_facts (hds d hd)).2.2.2.2.1)]
    refine List.filter_eq_self.mpr (fun t ht => ?_)
    rcases hmem t ht with ⟨d, hd, rfl⟩
    simp [List.isEmpty_iff, (day_token_facts (hds d hd)).2.2.2.2.2.1]

theorem validate_days_joinDays {ds : List String} (hne : ds ≠ [])
    (hds : ∀ d ∈ ds, d ∈ dayStrs) :
    _validate_days_part (joinChar ',' (ds.map String.data)) =
      .ok (joinChar ',' (ds.map String.data)) := by
  unfold _validate_days_part
  rw [daysTokensOf_joinDays hds]
  have hne' : (ds.map String.data).isEmpty = false := by
    cases ds with
    | nil => cases hne rfl
    | cons d0 ds0 => rfl
  rw [if_neg (by simp [hne'])]
  have hnone : (ds.map String.data).find? (fun t => !(DAY_TOKENS.contains t)) = none := by
    refine List.find?_eq_none.mpr (fun t ht => ?_)
    rcases List.mem_map.mp ht with ⟨d, hd, rfl⟩
    have hc : DAY_TOKENS.contains d.data = true :=
      List.elem_eq_true_of_mem (day_token_facts (hds d hd)).2.2.2.2.2.2
    simp only [hc, Bool.not_true, Bool.false_eq_true, not_false_eq_true]
  rw [hnone]

theorem parse_schedule_DAYS_eval (ds : List String) (t : String) {hm : Nat × Nat}
    (hne : ds ≠ []) (hds : ∀ d ∈ ds, d ∈ dayStrs) (ht : parse_hhmm t = some hm) :
    parse_schedule ("DAYS@" ++ joinDays ds ++ "@" ++ t) =
      .ok ⟨kindDAYS, some (joinDays ds), none, ⟨trimRightL t.data⟩⟩ := by
  have hJat : '@' ∉ joinChar ',' (ds.map String.data) := by
    intro hmem
    rcases mem_joinChar hmem with h | ⟨x, hx, hcx⟩
    · cases h
    · rcases List.mem_map.mp hx with ⟨d, hd, rfl⟩
      exact (day_token_facts (hds d hd)).2.1 hcx
  have ht' : parse_hhmm ⟨trimRightL t.data⟩ = some hm := by
    rw [parse_hhmm_trimRight]; exact ht
  unfold parse_schedule
  rw [String.data_append, String.data_append, String.data_append,
    List.append_assoc, List.append_assoc,
    show ("@".data : List Char) ++ t.data = '@' :: t.data from rfl,
    show ("DAYS@" : String).data = kDAYS from rfl,
    trimL_kDAYS, trimRightL_append_cons _ _ _ (by decide),
    parseSched_kDAYS, splitChar_kDAYS,
    show (joinDays ds).data = joinChar ',' (ds.map String.data) from rfl,
    splitChar_append_cons _ _ _ hJat,
    splitChar_no_sep _ _ (at_notin_trimRight_of_hhmm ht)]
  simp only [ht', validate_days_joinDays hne hds]
  rfl

theorem parse_schedule_ONCE_eval (d t : String) {v : Nat × Nat × Nat} {hm : Nat × Nat}
    (hd : parse_yyyy_mm_dd d = some v) (ht : parse_hhmm t = some hm) :
    parse_schedule ("ONCE@" ++ d ++ "@" ++ t) =
      .ok ⟨kindONCE, none, some d, ⟨trimRightL t.data⟩⟩ := by
  have ht' : parse_hhmm ⟨trimRightL t.data⟩ = some hm := by
    rw [parse_hhmm_trimRight]; exact ht
  have hd' : parse_yyyy_mm_dd ⟨d.data⟩ = some v := hd
  unfold parse_schedule
  rw [String.data_append, String.data_append, String.data_append,
    List.append_assoc, List.append_assoc,
    show ("@".data : List Char) ++ t.data = '@' :: t.data from rfl,
    show ("ONCE@" : String).data = kONCE from rfl,
    trimL_kONCE, trimRightL_append_cons _ _ _ (by decide),
    parseSched_kONCE, splitChar_kONCE,
    splitChar_append_cons _ _ _ (date_clean hd).2,
    splitChar_no_sep _ _ (at_notin_trimRight_of_hhmm ht)]
  simp only [hd', ht']

theorem parse_schedule_ONCE_baddate (d t : String)
    (hd : parse_yyyy_mm_dd d = none) (hdat : '@' ∉ d.data) (htat : '@' ∉ t.data) :
    parse_schedule ("ONCE@" ++ d ++ "@" ++ t) = .error fechaMsg := by
  have hd' : parse_yyyy_mm_dd ⟨d.data⟩ = none := hd
  unfold parse_schedule
  rw [String.data_append, String.data_append, String.data_append,
    List.append_assoc, List.append_assoc,
    show ("@".data : List Char) ++ t.data = '@' :: t.data from rfl,
    show ("ONCE@" : String).data = kONCE from rfl,
    trimL_kONCE, trimRightL_append_cons _ _ _ (by decide),
    parseSched_kONCE, splitChar_kONCE,
    splitChar_append_cons _ _ _ hdat,
    splitChar_no_sep _ _ (fun h => htat (mem_of_mem_trimRightL h))]
  simp only [hd']

theorem parse_schedule_DAYS_badcount (r : String) (hr : '@' ∉ r.data) :
    parse_schedule ("DAYS@" ++ r) = .error daysFmtMsg := by
  unfold parse_schedule
  rw [String.data_append, show ("DAYS@" : String).data = kDAYS from rfl,
    trimL_kDAYS, parseSched_kDAYS, splitChar_kDAYS,
    splitChar_no_sep _ _ (fun h => hr (mem_of_mem_trimRightL h))]

theorem parse_schedule_ONCE_badcount (r : String) (hr : '@' ∉ r.data) :
    parse_schedule ("ONCE@" ++ r) = .error onceFmtMsg := by
  unfold parse_schedule
  rw [String.data_append, show ("ONCE@" : String).data = kONCE from rfl,
    trimL_kONCE, parseSched_kONCE, splitChar_kONCE,
    splitChar_no_sep _ _ (fun h => hr (mem_of_mem_trimRightL h))]

theorem parse_schedule_DAYS_badfield (dp t : String) {hm : Nat × Nat} {e : String}
    (ht : parse_hhmm t = some hm) (hdp : '@' ∉ dp.data)
    (herr : _validate_days_part dp.data = .error e) :
    parse_schedule ("DAYS@" ++ dp ++ "@" ++ t) = .error e := by
  have ht' : parse_hhmm ⟨trimRightL t.data⟩ = some hm := by
    rw [parse_hhmm_trimRight]; exact ht
  unfold parse_schedule
  rw [String.data_append, String.data_append, String.data_append,
    List.append_assoc, List.append_assoc,
    show ("@".data : List Char) ++ t.data = '@' :: t.data from rfl,
    show ("DAYS@" : String).data = kDAYS from rfl,
    trimL_kDAYS, trimRightL_append_cons _ _ _ (by decide),
    parseSched_kDAYS, splitChar_kDAYS,
    splitChar_append_cons _ _ _ hdp,
    splitChar_no_sep _ _ (at_notin_trimRight_of_hhmm ht)]
  simp only [ht', herr]

/-- The first unknown token makes _validate_days_part fail with its name. -/
theorem validate_days_unknown {dp : List Char} {bad : List Char}
    (hfind : (daysTokensOf dp).find? (fun t => !(DAY_TOKENS.contains t)) = some bad) :
    _validate_days_part dp = .error (diaMsg bad) := by
  unfold _validate_days_part
  have hne : (daysTokensOf dp).isEmpty = false := by
    rw [List.isEmpty_eq_false_iff_exists_mem]
    exact ⟨bad, List.mem_of_find?_eq_some hfind⟩
  rw [if_neg (by simp [hne]), hfind]

theorem parse_schedule_badkeyword (s : String)
    (h1 : startsL ((trimL s.data).map Char.toUpper) kWEEKDAY = false)
    (h2 : startsL ((trimL s.data).map Char.toUpper) kWEEKEND = false)
    (h3 : startsL ((trimL s.data).map Char.toUpper) kEVERYDAY = false)
    (h4 : startsL ((trimL s.data).map Char.toUpper) kDAILY = false)
    (h5 : startsL ((trimL s.data).map Char.toUpper) kDAYS = false)
    (h6 : startsL ((trimL s.data).map Char.toUpper) kONCE = false) :
    parse_schedule s = .error schedAllMsg := by
  unfold parse_schedule parseSched
  rw [if_neg (by simp [h1]), if_neg (by simp [h2]), if_neg (by simp [h3, h4]),
    if_neg (by simp [h5]), if_neg (by simp [h6])]

/-! ## Helper lemmas for the trigger builder and parse inversion -/

theorem build_trigger_recurring (resolveOk : String → Bool) (p : ParsedSchedule)
    (tzname : String) (h m : Nat) (hp : parse_hhmm p.hhmm = some (h, m))
    (hk : p.kind ∈ recurringKinds) :
    build_trigger resolveOk p tzname =
      .ok (.cron p.dow h m (get_tz resolveOk tzname)) := by
  unfold build_trigger
  rw [hp]
  dsimp only
  rw [if_pos hk]

theorem build_trigger_once (resolveOk : String → Bool) (p : ParsedSchedule)
    (tzname : String) (h m y mo dd : Nat) (hp : parse_hhmm p.hhmm = some (h, m))
    (hk : p.kind ∉ recurringKinds)
    (hd : parse_yyyy_mm_dd (p.date_once.getD "") = some (y, mo, dd)) :
    build_trigger resolveOk p tzname =
      .ok (.date y mo dd h m (get_tz resolveOk tzname)) := by
  unfold build_trigger
  rw [hp]
  dsimp only
  rw [if_neg hk, hd]

/-- Every descriptor parse_schedule produces has a valid time field, and a
valid date field whenever its kind falls through to the ONCE arm of
build_trigger. -/
theorem parse_ok_wf {s : String} {p : ParsedSchedule}
    (h : parse_schedule s = .ok p) :
    (∃ hm, parse_hhmm p.hhmm = some hm) ∧
      (p.kind ∉ recurringKinds →
        ∃ v, parse_yyyy_mm_dd (p.date_once.getD "") = some v) := by
  unfold parse_schedule parseSched at h
  split at h
  · split at h
    · cases h
    · next hm heq => cases h; exact ⟨⟨hm, heq⟩, fun hk => absurd (show kindWEEKDAY ∈ recurringKinds by decide) hk⟩
  · split at h
    · split at h
      · cases h
      · next hm heq => cases h; exact ⟨⟨hm, heq⟩, fun hk => absurd (show kindWEEKEND ∈ recurringKinds by decide) hk⟩
    · split at h
      · split at h
        · cases h
        · next hm heq => cases h; exact ⟨⟨hm, heq⟩, fun hk => absurd (show kindEVERYDAY ∈ recurringKinds by decide) hk⟩
      · split at h
        · split at h
          · split at h
            · cases h
            · next hm heq =>
              split at h
              · cases h
              · cases h; exact ⟨⟨hm, heq⟩, fun hk => absurd (show kindDAYS ∈ recurringKinds by decide) hk⟩
          · cases h
        · split at h
          · split at h
            · split at h
              · cases h
              · next hv hdq =>
                split at h
                · cases h
                · next hm heq => cases h; exact ⟨⟨hm, heq⟩, fun _ => ⟨hv, hdq⟩⟩
            · cases h
          · cases h

theorem validate_days_error_nonempty {dp : List Char} {e : String}
    (h : _validate_days_part dp = .error e) : e ≠ "" := by
  unfold _validate_days_part at h
  dsimp only at h
  split at h
  · cases h; decide
  · split at h
    · cases h
      intro hmsg
      have hd := congrArg String.data hmsg
      rw [show (diaMsg _).data =
        'D' :: ("ia invalido ".data ++ _ ++ diaMsgTail.data) from rfl] at hd
      simp at hd
    · cases h

theorem parse_error_nonempty {s : String} {msg : String}
    (h : parse_schedule s = .error msg) : msg ≠ "" := by
  unfold parse_schedule parseSched at h
  split at h
  · split at h
    · cases h; decide
    · cases h
  · split at h
    · split at h
      · cases h; decide
      · cases h
    · split at h
      · split at h
        · cases h; decide
        · cases h
      · split at h
        · split at h
          · split at h
            · cases h; decide
            · split at h
              · next heq => cases h; exact validate_days_error_nonempty heq
              · cases h
          · cases h; decide
        · split at h
          · split at h
            · split at h
              · cases h; decide
              · split at h
                · cases h; decide
                · cases h
            · cases h; decide
          · cases h; decide

/-- Mixed-case DAILY keyword: the branch taken and the descriptor built are
those of EVERYDAY. -/
theorem parseSched_caseDAILY (c1 c2 c3 c4 c5 : Char) (R : List Char)
    (h1 : c1.toUpper = 'D') (h2 : c2.toUpper = 'A') (h3 : c3.toUpper = 'I')
    (h4 : c4.toUpper = 'L') (h5 : c5.toUpper = 'Y') :
    parseSched (c1 :: c2 :: c3 :: c4 :: c5 :: '@' :: R) =
      match parse_hhmm ⟨R⟩ with
      | none => .error horaMsg
      | some _ => .ok ⟨kindEVERYDAY, some EVERYDAY_DOW, none, ⟨R⟩⟩ := by
  have hat : Char.toUpper '@' = '@' := by decide
  have hup : (c1 :: c2 :: c3 :: c4 :: c5 :: '@' :: R).map Char.toUpper =
      kDAILY ++ R.map Char.toUpper := by
    simp only [List.map_cons, h1, h2, h3, h4, h5, hat]
    rfl
  have n1 : ¬(c1 = '@') := fun hc => by rw [hc] at h1; exact absurd h1 (by decide)
  have n2 : ¬(c2 = '@') := fun hc => by rw [hc] at h2; exact absurd h2 (by decide)
  have n3 : ¬(c3 = '@') := fun hc => by rw [hc] at h3; exact absurd h3 (by decide)
  have n4 : ¬(c4 = '@') := fun hc => by rw [hc] at h4; exact absurd h4 (by decide)
  have n5 : ¬(c5 = '@') := fun hc => by rw [hc] at h5; exact absurd h5 (by decide)
  have hafter : afterChar '@' (c1 :: c2 :: c3 :: c4 :: c5 :: '@' :: R) = R := by
    simp [afterChar, n1, n2, n3, n4, n5]
  unfold parseSched
  rw [hup]
  rw [if_neg (by simp [startsL, kDAILY, kWEEKDAY] :
    ¬ (startsL (kDAILY ++ R.map Char.toUpper) kWEEKDAY = true))]
  rw [if_neg (by simp [startsL, kDAILY, kWEEKEND] :
    ¬ (startsL (kDAILY ++ R.map Char.toUpper) kWEEKEND = true))]
  rw [if_pos (by simp [startsL, kDAILY, kEVERYDAY, startsL_append_self] :
    ((startsL (kDAILY ++ R.map Char.toUpper) kEVERYDAY ||
      startsL (kDAILY ++ R.map Char.toUpper) kDAILY) = true))]
  rw [hafter]

/-- The cron day-of-week field built from a joined day list denotes exactly
the listed days, in order, duplicates preserved. -/
theorem dowTokens_joinDays {ds : List String} (hne : ds ≠ [])
    (hds : ∀ d ∈ ds, d ∈ dayStrs) :
    dowTokens (joinDays ds) = ds := by
  unfold dowTokens joinDays
  rw [show ((⟨joinChar ',' (ds.map String.data)⟩ : String)).data =
    joinChar ',' (ds.map String.data) from rfl]
  rw [splitChar_joinChar _ _ (by simpa using hne) (fun t ht => by
    rcases List.mem_map.mp ht with ⟨d, hd, rfl⟩
    exact (day_token_facts (hds d hd)).1)]
  rw [List.map_map]
  exact map_eq_self_of _ _ (fun d hd => rfl)

theorem toUpper_of_isSpace {c : Char} (h : isSpace c = true) : c.toUpper = c := by
  simp only [isSpace, Bool.or_eq_true, decide_eq_true_eq] at h
  rcases h with ((((h | h) | h) | h) | h) | h <;> subst h <;> decide

theorem isSpace_false_of_toUpper {c u : Char} (h : c.toUpper = u)
    (hu : isSpace u = false) : isSpace c = false := by
  cases hb : isSpace c
  · rfl
  · rw [toUpper_of_isSpace hb] at h
    subst h
    rw [hb] at hu
    cases hu

/-! ## Claim C9 : DAILY is an exact alias of EVERYDAY -/

/-- C9: for every time string t, parsing DAILY@t gives exactly the result of
parsing EVERYDAY@t (same descriptor or same error); this holds for any
letter-casing of the DAILY keyword; and on a valid time the common
descriptor has kind EVERYDAY with all seven days. -/
theorem c9_daily_alias :
    (∀ t : String, parse_schedule ("DAILY@" ++ t) = parse_schedule ("EVERYDAY@" ++ t)) ∧
    (∀ (c1 c2 c3 c4 c5 : Char) (t : String),
      c1.toUpper = 'D' → c2.toUpper = 'A' → c3.toUpper = 'I' → c4.toUpper = 'L' →
      c5.toUpper = 'Y' →
      parse_schedule ((⟨[c1, c2, c3, c4, c5, '@']⟩ : String) ++ t) =
        parse_schedule ("EVERYDAY@" ++ t)) ∧
    (∀ (t : String) (h m : Nat), parse_hhmm t = some (h, m) →
      ∃ p, parse_schedule ("DAILY@" ++ t) = .ok p ∧ p.kind = kindEVERYDAY ∧
        p.dow = some EVERYDAY_DOW ∧ dowTokens EVERYDAY_DOW = dayStrs) := by
  refine ⟨?_, ?_, ?_⟩
  · intro t
    rw [parse_schedule_DAILY_eval, parse_schedule_EVERYDAY_eval]
  · intro c1 c2 c3 c4 c5 t h1 h2 h3 h4 h5
    have hs1 : isSpace c1 = false := isSpace_false_of_toUpper h1 (by decide)
    have hL : parse_schedule ((⟨[c1, c2, c3, c4, c5, '@']⟩ : String) ++ t) =
        match parse_hhmm t with
        | none => .error horaMsg
        | some _ => .ok ⟨kindEVERYDAY, some EVERYDAY_DOW, none, ⟨trimRightL t.data⟩⟩ := by
      unfold parse_schedule
      rw [show ((⟨[c1, c2, c3, c4, c5, '@']⟩ : String) ++ t).data =
        c1 :: ([c2, c3, c4, c5] ++ '@' :: t.data) from rfl]
      rw [trimL_key c1 [c2, c3, c4, c5] '@' t.data hs1 (by decide)]
      rw [show c1 :: ([c2, c3, c4, c5] ++ '@' :: trimRightL t.data) =
        c1 :: c2 :: c3 :: c4 :: c5 :: '@' :: trimRightL t.data from rfl]
      rw [parseSched_caseDAILY c1 c2 c3 c4 c5 _ h1 h2 h3 h4 h5, parse_hhmm_trimRight]
    rw [hL, parse_schedule_EVERYDAY_eval]
  · intro t h m ht
    refine ⟨⟨kindEVERYDAY, some EVERYDAY_DOW, none, ⟨trimRightL t.data⟩⟩, ?_, rfl, rfl,
      by decide⟩
    rw [parse_schedule_DAILY_eval, ht]

/-- C9 witness: the alias at a concrete lower-case keyword and time. -/
theorem c9_daily_alias_witness :
    parse_schedule "daily@07:15" = parse_schedule "EVERYDAY@07:15" ∧
    parse_schedule "DAILY@07:15" = parse_schedule "EVERYDAY@07:15" := by
  constructor
  · have h2 := c9_daily_alias.2.1 'd' 'a' 'i' 'l' 'y' "07:15"
      (by decide) (by decide) (by decide) (by decide) (by decide)
    rwa [show ((⟨['d', 'a', 'i', 'l', 'y', '@']⟩ : String) ++ "07:15") = "daily@07:15"
      from by decide] at h2
  · exact c9_daily_alias.1 "07:15"

/-- C7 counterexample: the single-digit hour 8:00, which the claim says is
rejected as a syntax error, is accepted by parse_hhmm and by parse_schedule. -/
theorem c7_hour_padding_counterexample :
    parse_hhmm "8:00" = some (8, 0) ∧
    parse_schedule "WEEKDAY@8:00" =
      .ok ⟨kindWEEKDAY, some WEEKDAY_DOW, none, "8:00"⟩ := by
  exact ⟨by decide, by decide⟩

set_option maxHeartbeats 4000000 in
set_option maxRecDepth 10000 in
/-- C7 amended: minutes must be two digits 00-59 and hours 00-23 are
range-checked, but the hour zero padding is optional: a zero-padded in-range
time is accepted, a single-digit hour with two-digit minute is accepted too,
and any out-of-range hour or minute in two-digit form is rejected. -/
theorem c7_time_parsing :
    (∀ h, h < 24 → ∀ m, m < 60 → parse_hhmm (pad2 h ++ ":" ++ pad2 m) = some (h, m)) ∧
    (∀ h, h < 10 → ∀ m, m < 60 → parse_hhmm (digitStr h ++ ":" ++ pad2 m) = some (h, m)) ∧
    (∀ h, h < 100 → ∀ m, m < 100 → (23 < h ∨ 59 < m) →
      parse_hhmm (pad2 h ++ ":" ++ pad2 m) = none) := by
  refine ⟨by decide, by decide, by decide⟩

/-- C7 witness: the amended statement at concrete times. -/
theorem c7_time_parsing_witness :
    parse_hhmm "08:05" = some (8, 5) ∧ parse_hhmm "9:30" = some (9, 30) ∧
    parse_hhmm "24:00" = none := by
  refine ⟨?_, ?_, ?_⟩
  · have h := c7_time_parsing.1 8 (by decide) 5 (by decide)
    rwa [show pad2 8 ++ ":" ++ pad2 5 = "08:05" from by decide] at h
  · have h := c7_time_parsing.2.1 9 (by decide) 30 (by decide)
    rwa [show digitStr 9 ++ ":" ++ pad2 30 = "9:30" from by decide] at h
  · have h := c7_time_parsing.2.2 24 (by decide) 0 (by decide) (Or.inl (by decide))
    rwa [show pad2 24 ++ ":" ++ pad2 0 = "24:00" from by decide] at h

/-! ## Claim C6 : duplicate day tokens in DAYS schedules -/

/-- C6 counterexample: DAYS@mon,mon@08:00 parses to a descriptor whose
day-of-week token list is mon,mon — the duplicate is kept, the stored token
list is not de-duplicated. -/
theorem c6_days_dedup_counterexample :
    parse_schedule "DAYS@mon,mon@08:00" =
      .ok ⟨kindDAYS, some "mon,mon", none, "08:00"⟩ ∧
    dowTokens "mon,mon" = ["mon", "mon"] ∧
    ¬ (dowTokens "mon,mon").Nodup := by
  exact ⟨by decide, by decide, by decide⟩

/-- C6 amended: for any non-empty list of day tokens (duplicates and order
included), the descriptor stores exactly the listed tokens in order with
repetitions preserved; only the induced set of weekday tokens equals the set
of distinct listed days. -/
theorem c6_days_token_list (ds : List String) (t : String) (hm : Nat × Nat)
    (hne : ds ≠ []) (hds : ∀ d ∈ ds, d ∈ dayStrs) (ht : parse_hhmm t = some hm) :
    ∃ p, parse_schedule ("DAYS@" ++ joinDays ds ++ "@" ++ t) = .ok p ∧
      p.dow = some (joinDays ds) ∧ dowTokens (joinDays ds) = ds ∧
      (dowTokens (joinDays ds)).toFinset = ds.toFinset ∧
      (dowTokens (joinDays ds)).toFinset = ds.dedup.toFinset := by
  refine ⟨_, parse_schedule_DAYS_eval ds t hne hds ht, rfl,
    dowTokens_joinDays hne hds, ?_, ?_⟩
  · rw [dowTokens_joinDays hne hds]
  · rw [dowTokens_joinDays hne hds]
    exact Finset.ext (fun a => by simp [List.mem_toFinset, List.mem_dedup])

/-- C6 witness: the amended statement at the duplicate-token input. -/
theorem c6_days_token_list_witness :
    ∃ p, parse_schedule ("DAYS@" ++ joinDays ["mon", "mon"] ++ "@" ++ "08:00") = .ok p ∧
      p.dow = some (joinDays ["mon", "mon"]) ∧
      dowTokens (joinDays ["mon", "mon"]) = ["mon", "mon"] ∧
      (dowTokens (joinDays ["mon", "mon"])).toFinset = (["mon", "mon"] : List String).toFinset ∧
      (dowTokens (joinDays ["mon", "mon"])).toFinset =
        (["mon", "mon"] : List String).dedup.toFinset :=
  c6_days_token_list ["mon", "mon"] "08:00" (8, 0) (by decide) (by decide) (by decide)

/-! ## Claim C8 : timezone fallback never blocks trigger building -/

/-- C8: an unresolvable zone name falls back to UTC, and for every descriptor
parse_schedule produces, build_trigger succeeds for every timezone name and
every state of the zone database. -/
theorem c8_tz_fallback :
    (∀ (resolveOk : String → Bool) (tzname : String), resolveOk tzname = false →
      get_tz resolveOk tzname = TZ.utc) ∧
    (∀ (s : String) (p : ParsedSchedule) (resolveOk : String → Bool) (tzname : String),
      parse_schedule s = .ok p → ∃ tr, build_trigger resolveOk p tzname = .ok tr) := by
  constructor
  · intro resolveOk tzname h
    unfold get_tz
    rw [if_neg (by simp [h])]
  · intro s p resolveOk tzname hp
    obtain ⟨⟨⟨h, m⟩, hhm⟩, hdate⟩ := parse_ok_wf hp
    by_cases hk : p.kind ∈ recurringKinds
    · exact ⟨_, build_trigger_recurring resolveOk p tzname h m hhm hk⟩
    · obtain ⟨⟨y, mo, dd⟩, hd⟩ := hdate hk
      exact ⟨_, build_trigger_once resolveOk p tzname h m y mo dd hhm hk hd⟩

/-- C8 witness: building a ONCE trigger with a zone
database that resolves nothing still succeeds, with the UTC fallback. -/
theorem c8_tz_fallback_witness :
    get_tz (fun _ => false) "Nowhere/Zone" = TZ.utc ∧
    ∃ tr, build_trigger (fun _ => false)
      ⟨kindONCE, none, some "2026-01-20", "09:00"⟩ "Nowhere/Zone" = .ok tr := by
  constructor
  · exact c8_tz_fallback.1 (fun _ => false) "Nowhere/Zone" rfl
  · exact c8_tz_fallback.2 "ONCE@2026-01-20@09:00" _ (fun _ => false) "Nowhere/Zone"
      (by decide)

/-! ## Claim C2 : the five schedule forms and their triggers -/

/-- C2: for every valid time t, WEEKDAY@t fires exactly Monday-Friday at t,
WEEKEND@t exactly Saturday-Sunday, EVERYDAY@t all seven days, DAYS@d1,..,dn@t
exactly the listed days, and ONCE@date@t at exactly that date and time; in
each case the built trigger carries the descriptor day set and the parsed
hour and minute. -/
theorem c2_schedule_semantics :
    ∀ (t : String) (h m : Nat), parse_hhmm t = some (h, m) →
    ∀ (resolveOk : String → Bool) (tzname : String),
      (∃ p, parse_schedule ("WEEKDAY@" ++ t) = .ok p ∧ p.kind = kindWEEKDAY ∧
        p.dow = some WEEKDAY_DOW ∧ p.date_once = none ∧
        dowTokens WEEKDAY_DOW = ["mon", "tue", "wed", "thu", "fri"] ∧
        parse_hhmm p.hhmm = some (h, m) ∧
        build_trigger resolveOk p tzname =
          .ok (.cron (some WEEKDAY_DOW) h m (get_tz resolveOk tzname))) ∧
      (∃ p, parse_schedule ("WEEKEND@" ++ t) = .ok p ∧ p.kind = kindWEEKEND ∧
        p.dow = some WEEKEND_DOW ∧ p.date_once = none ∧
        dowTokens WEEKEND_DOW = ["sat", "sun"] ∧
        parse_hhmm p.hhmm = some (h, m) ∧
        build_trigger resolveOk p tzname =
          .ok (.cron (some WEEKEND_DOW) h m (get_tz resolveOk tzname))) ∧
      (∃ p, parse_schedule ("EVERYDAY@" ++ t) = .ok p ∧ p.kind = kindEVERYDAY ∧
        p.dow = some EVERYDAY_DOW ∧ p.date_once = none ∧
        dowTokens EVERYDAY_DOW = dayStrs ∧
        parse_hhmm p.hhmm = some (h, m) ∧
        build_trigger resolveOk p tzname =
          .ok (.cron (some EVERYDAY_DOW) h m (get_tz resolveOk tzname))) ∧
      (∀ ds : List String, ds ≠ [] → (∀ d ∈ ds, d ∈ dayStrs) →
        ∃ p, parse_schedule ("DAYS@" ++ joinDays ds ++ "@" ++ t) = .ok p ∧
          p.kind = kindDAYS ∧ p.dow = some (joinDays ds) ∧ p.date_once = none ∧
          dowTokens (joinDays ds) = ds ∧ parse_hhmm p.hhmm = some (h, m) ∧
          build_trigger resolveOk p tzname =
            .ok (.cron (some (joinDays ds)) h m (get_tz resolveOk tzname))) ∧
      (∀ (d : String) (y mo dd : Nat), parse_yyyy_mm_dd d = some (y, mo, dd) →
        ∃ p, parse_schedule ("ONCE@" ++ d ++ "@" ++ t) = .ok p ∧
          p.kind = kindONCE ∧ p.dow = none ∧ p.date_once = some d ∧
          parse_hhmm p.hhmm = some (h, m) ∧
          build_trigger resolveOk p tzname =
            .ok (.date y mo dd h m (get_tz resolveOk tzname))) := by
  intro t h m ht resolveOk tzname
  have htr : parse_hhmm ⟨trimRightL t.data⟩ = some (h, m) := by
    rw [parse_hhmm_trimRight]
    exact ht
  refine ⟨?_, ?_, ?_, ?_, ?_⟩
  · refine ⟨⟨kindWEEKDAY, some WEEKDAY_DOW, none, ⟨trimRightL t.data⟩⟩,
      ?_, rfl, rfl, rfl, by decide, htr, ?_⟩
    · rw [parse_schedule_WEEKDAY_eval, ht]
    · exact build_trigger_recurring resolveOk _ tzname h m htr
        (show kindWEEKDAY ∈ recurringKinds by decide)
  · refine ⟨⟨kindWEEKEND, some WEEKEND_DOW, none, ⟨trimRightL t.data⟩⟩,
      ?_, rfl, rfl, rfl, by decide, htr, ?_⟩
    · rw [parse_schedule_WEEKEND_eval, ht]
    · exact build_trigger_recurring resolveOk _ tzname h m htr
        (show kindWEEKEND ∈ recurringKinds by decide)
  · refine ⟨⟨kindEVERYDAY, some EVERYDAY_DOW, none, ⟨trimRightL t.data⟩⟩,
      ?_, rfl, rfl, rfl, by decide, htr, ?_⟩
    · rw [parse_schedule_EVERYDAY_eval, ht]
    · exact build_trigger_recurring resolveOk _ tzname h m htr
        (show kindEVERYDAY ∈ recurringKinds by decide)
  · intro ds hne hds
    refine ⟨⟨kindDAYS, some (joinDays ds), none, ⟨trimRightL t.data⟩⟩,
      parse_schedule_DAYS_eval ds t hne hds ht, rfl, rfl, rfl,
      dowTokens_joinDays hne hds, htr, ?_⟩
    exact build_trigger_recurring resolveOk _ tzname h m htr
      (show kindDAYS ∈ recurringKinds by decide)
  · intro d y mo dd hd
    refine ⟨⟨kindONCE, none, some d, ⟨trimRightL t.data⟩⟩,
      parse_schedule_ONCE_eval d t hd ht, rfl, rfl, rfl, htr, ?_⟩
    exact build_trigger_once resolveOk _ tzname h m y mo dd htr
      (show kindONCE ∉ recurringKinds by decide) hd

/-- C2 witness: the five forms at 08:00 (20:00, 09:00 for the composite
forms) with the examples of the spec. -/
theorem c2_schedule_semantics_witness :
    (∃ p, parse_schedule ("WEEKDAY@" ++ "08:00") = .ok p ∧ p.kind = kindWEEKDAY ∧
      p.dow = some WEEKDAY_DOW ∧ p.date_once = none ∧
      dowTokens WEEKDAY_DOW = ["mon", "tue", "wed", "thu", "fri"] ∧
      parse_hhmm p.hhmm = some (8, 0) ∧
      build_trigger (fun _ => true) p "America/Bogota" =
        .ok (.cron (some WEEKDAY_DOW) 8 0 (get_tz (fun _ => true) "America/Bogota"))) ∧
    (∀ ds : List String, ds ≠ [] → (∀ d ∈ ds, d ∈ dayStrs) →
      ∃ p, parse_schedule ("DAYS@" ++ joinDays ds ++ "@" ++ "08:00") = .ok p ∧
        p.kind = kindDAYS ∧ p.dow = some (joinDays ds) ∧ p.date_once = none ∧
        dowTokens (joinDays ds) = ds ∧ parse_hhmm p.hhmm = some (8, 0) ∧
        build_trigger (fun _ => true) p "America/Bogota" =
          .ok (.cron (some (joinDays ds)) 8 0 (get_tz (fun _ => true) "America/Bogota"))) ∧
    (∃ p, parse_schedule ("ONCE@" ++ "2026-01-20" ++ "@" ++ "09:00") = .ok p ∧
      p.kind = kindONCE ∧ p.dow = none ∧ p.date_once = some "2026-01-20" ∧
      parse_hhmm p.hhmm = some (9, 0) ∧
      build_trigger (fun _ => true) p "America/Bogota" =
        .ok (.date 2026 1 20 9 0 (get_tz (fun _ => true) "America/Bogota"))) := by
  refine ⟨?_, ?_, ?_⟩
  · exact (c2_schedule_semantics "08:00" 8 0 (by decide) (fun _ => true) "America/Bogota").1
  · exact (c2_schedule_semantics "08:00" 8 0 (by decide) (fun _ => true)
      "America/Bogota").2.2.2.1
  · exact (c2_schedule_semantics "09:00" 9 0 (by decide) (fun _ => true)
      "America/Bogota").2.2.2.2 "2026-01-20" 2026 1 20 (by decide)

/-! ## Claim C1 : grammar violations are syntax errors, never crashes -/

/-- C1: every grammar violation makes parse_schedule fail with the
corresponding ValueError message: an unrecognized keyword yields the error
enumerating the five forms, a wrong @-field count the format error of the
form, a bad time the time error, an unknown day token the error naming the
token, and an invalid ONCE calendar date the date error; and on every input
parse_schedule terminates with either a descriptor or a non-empty
human-readable error, never any other failure. -/
theorem c1_syntax_errors :
    (∀ s : String,
      (∀ k ∈ [kWEEKDAY, kWEEKEND, kEVERYDAY, kDAILY, kDAYS, kONCE],
        startsL ((trimL s.data).map Char.toUpper) k = false) →
      parse_schedule s = .error schedAllMsg) ∧
    (∀ r : String, '@' ∉ r.data →
      parse_schedule ("DAYS@" ++ r) = .error daysFmtMsg ∧
      parse_schedule ("ONCE@" ++ r) = .error onceFmtMsg) ∧
    (∀ t : String, parse_hhmm t = none →
      parse_schedule ("WEEKDAY@" ++ t) = .error horaMsg ∧
      parse_schedule ("WEEKEND@" ++ t) = .error horaMsg ∧
      parse_schedule ("EVERYDAY@" ++ t) = .error horaMsg) ∧
    (∀ (dp t : String) (hm : Nat × Nat) (bad : List Char),
      parse_hhmm t = some hm → '@' ∉ dp.data →
      (daysTokensOf dp.data).find? (fun x => !(DAY_TOKENS.contains x)) = some bad →
      parse_schedule ("DAYS@" ++ dp ++ "@" ++ t) = .error (diaMsg bad)) ∧
    (∀ d t : String, parse_yyyy_mm_dd d = none → '@' ∉ d.data → '@' ∉ t.data →
      parse_schedule ("ONCE@" ++ d ++ "@" ++ t) = .error fechaMsg) ∧
    (∀ s : String, (∃ p, parse_schedule s = .ok p) ∨
      (∃ msg, parse_schedule s = .error msg ∧ msg ≠ "")) := by
  refine ⟨?_, ?_, ?_, ?_, ?_, ?_⟩
  · intro s hk
    exact parse_schedule_badkeyword s (hk _ (by simp)) (hk _ (by simp)) (hk _ (by simp))
      (hk _ (by simp)) (hk _ (by simp)) (hk _ (by simp))
  · intro r hr
    exact ⟨parse_schedule_DAYS_badcount r hr, parse_schedule_ONCE_badcount r hr⟩
  · intro t ht
    refine ⟨?_, ?_, ?_⟩
    · rw [parse_schedule_WEEKDAY_eval, ht]
    · rw [parse_schedule_WEEKEND_eval, ht]
    · rw [parse_schedule_EVERYDAY_eval, ht]
  · intro dp t hm bad ht hdp hfind
    exact parse_schedule_DAYS_badfield dp t ht hdp (validate_days_unknown hfind)
  · intro d t hd hdat htat
    exact parse_schedule_ONCE_baddate d t hd hdat htat
  · intro s
    cases hps : parse_schedule s with
    | ok p => exact Or.inl ⟨p, rfl⟩
    | error msg => exact Or.inr ⟨msg, rfl, parse_error_nonempty hps⟩

/-- C1 witness: one concrete violating input of each kind, each failing with
its syntax error. -/
theorem c1_syntax_errors_witness :
    parse_schedule "nonsense" = .error schedAllMsg ∧
    parse_schedule "DAYS@tue" = .error daysFmtMsg ∧
    parse_schedule ("WEEKDAY@" ++ "25:00") = .error horaMsg ∧
    parse_schedule ("DAYS@" ++ "xyz" ++ "@" ++ "08:00") = .error (diaMsg "xyz".data) ∧
    parse_schedule ("ONCE@" ++ "2026-13-01" ++ "@" ++ "08:00") = .error fechaMsg := by
  obtain ⟨ha, hb, hc, hd, he, hf⟩ := c1_syntax_errors
  refine ⟨?_, ?_, ?_, ?_, ?_⟩
  · exact ha "nonsense" (by decide)
  · have h := (hb "tue" (by decide)).1
    rwa [show ("DAYS@" ++ "tue" : String) = "DAYS@tue" from by decide] at h
  · exact (hc "25:00" (by decide)).1
  · exact hd "xyz" "08:00" (8, 0) "xyz".data (by decide) (by decide) (by decide)
  · exact he "2026-13-01" "08:00" (by decide) (by decide) (by decide)

/-! ## Lemmas about engine bookkeeping and record updates -/

theorem filtered_find_none (jobs : List (String × Job)) (jid : String) :
    (jobs.filter (fun p => p.1 ≠ jid)).find? (fun p => p.1 == jid) = none := by
  rw [List.find?_eq_none]
  intro p hp hbeq
  have hne : p.1 ≠ jid := by
    have hmem := (List.mem_filter.mp hp).2
    simpa using hmem
  exact hne (by simpa using hbeq)

theorem jobLookup_removeJob (jobs : List (String × Job)) (jid : String) :
    jobLookup (removeJob jobs jid) jid = none := by
  unfold jobLookup removeJob
  rw [filtered_find_none]
  rfl

theorem jobLookup_addJobReplace (jobs : List (String × Job)) (jid : String) (j : Job) :
    jobLookup (addJobReplace jobs jid j) jid = some j := by
  unfold jobLookup addJobReplace removeJob
  rw [List.find?_append, filtered_find_none]
  simp [List.find?]

theorem last_run_of_update {rows : List Reminder} {rid : Nat} {last next : Option String}
    {r' : Reminder} (h : r' ∈ update_reminder_run_times rows rid last next)
    (hid : r'.id = rid) : r'.last_run_at = last ∧ r'.next_run_at = next := by
  unfold update_reminder_run_times at h
  rcases List.mem_map.mp h with ⟨r, hr, rfl⟩
  by_cases hcase : r.id = rid
  · simp [hcase]
  · rw [if_neg hcase] at hid
    exact absurd hid hcase

theorem mem_update_run_times {rows : List Reminder} {rid : Nat} {last next : Option String}
    {r' : Reminder} (h : r' ∈ update_reminder_run_times rows rid last next) :
    ∃ r ∈ rows, r'.id = r.id ∧ r'.user_id = r.user_id ∧ r'.active = r.active := by
  unfold update_reminder_run_times at h
  rcases List.mem_map.mp h with ⟨r, hr, rfl⟩
  refine ⟨r, hr, ?_⟩
  by_cases hcase : r.id = rid
  · rw [if_pos hcase]
    exact ⟨rfl, rfl, rfl⟩
  · rw [if_neg hcase]
    exact ⟨rfl, rfl, rfl⟩

theorem mem_update_active {rows : List Reminder} {uid rid a : Nat}
    {r' : Reminder} (h : r' ∈ update_reminder_active rows uid rid a) :
    ∃ r ∈ rows, r'.id = r.id ∧ (r'.active = r.active ∨ r'.active = a) := by
  unfold update_reminder_active at h
  rcases List.mem_map.mp h with ⟨r, hr, rfl⟩
  refine ⟨r, hr, ?_⟩
  by_cases hcase : r.user_id = uid ∧ r.id = rid
  · rw [if_pos hcase]
    exact ⟨rfl, Or.inr rfl⟩
  · rw [if_neg hcase]
    exact ⟨rfl, Or.inl rfl⟩

theorem schedule_one_inactive_eq {resolveOk : String → Bool} {st : BotState}
    {row : Reminder} {chat : Nat} (h : row.active ≠ 1) :
    schedule_one resolveOk st row chat =
      .ok { st with jobs := removeJob st.jobs (job_id_for row.user_id row.id) } := by
  unfold schedule_one
  dsimp only
  rw [if_pos h]

theorem schedule_one_active_eq {resolveOk : String → Bool} {st : BotState}
    {row : Reminder} {chat : Nat} {p : ParsedSchedule} {tr : Trigger}
    (hact : row.active = 1) (hparse : parse_schedule row.schedule = .ok p)
    (hbuild : build_trigger resolveOk p (tzOrDefault row.timezone) = .ok tr) :
    schedule_one resolveOk st row chat =
      .ok { st with
              jobs := addJobReplace st.jobs (job_id_for row.user_id row.id)
                ⟨tr, row.id, chat⟩,
              reminders := update_reminder_run_times st.reminders row.id none none } := by
  unfold schedule_one
  dsimp only
  rw [if_neg (by simp [hact])]
  simp only [hparse, hbuild]

theorem schedule_one_ok_cases {resolveOk : String → Bool} {st : BotState}
    {row : Reminder} {chat : Nat} {st' : BotState}
    (h : schedule_one resolveOk st row chat = .ok st') :
    (row.active ≠ 1 ∧
      st' = { st with jobs := removeJob st.jobs (job_id_for row.user_id row.id) }) ∨
    (row.active = 1 ∧ ∃ p tr, parse_schedule row.schedule = .ok p ∧
      build_trigger resolveOk p (tzOrDefault row.timezone) = .ok tr ∧
      st' = { st with
                jobs := addJobReplace st.jobs (job_id_for row.user_id row.id)
                  ⟨tr, row.id, chat⟩,
                reminders := update_reminder_run_times st.reminders row.id none none }) := by
  unfold schedule_one at h
  dsimp only at h
  split at h
  · next hact => cases h; exact Or.inl ⟨hact, rfl⟩
  · next hact =>
    split at h
    · cases h
    · next p hp =>
      split at h
      · cases h
      · next tr htr =>
        cases h
        exact Or.inr ⟨by omega, p, tr, hp, htr, rfl⟩

/-! ## Claim C10 : schedule_one resets the run-time bookkeeping -/

/-- C10: scheduling an active record installs its job and erases both
run-time columns (last_run_at and next_run_at become NULL), changing no other
column of any reminder row and nothing else in the store. -/
theorem c10_schedule_one_resets_bookkeeping :
    ∀ (resolveOk : String → Bool) (st : BotState) (row : Reminder) (chat : Nat)
      (st' : BotState),
      row.active = 1 → schedule_one resolveOk st row chat = .ok st' →
      st'.reminders = st.reminders.map (fun r =>
        if r.id = row.id then { r with last_run_at := none, next_run_at := none }
        else r) ∧
      st'.chats = st.chats ∧ st'.sent = st.sent ∧
      (∃ j, jobLookup st'.jobs (job_id_for row.user_id row.id) = some j) ∧
      st'.reminders.map Reminder.id = st.reminders.map Reminder.id ∧
      st'.reminders.map Reminder.user_id = st.reminders.map Reminder.user_id ∧
      st'.reminders.map Reminder.name = st.reminders.map Reminder.name ∧
      st'.reminders.map Reminder.message = st.reminders.map Reminder.message ∧
      st'.reminders.map Reminder.schedule = st.reminders.map Reminder.schedule ∧
      st'.reminders.map Reminder.timezone = st.reminders.map Reminder.timezone ∧
      st'.reminders.map Reminder.active = st.reminders.map Reminder.active ∧
      (∀ r' ∈ st'.reminders, r'.id = row.id →
        r'.last_run_at = none ∧ r'.next_run_at = none) := by
  intro resolveOk st row chat st' hact h
  rcases schedule_one_ok_cases h with ⟨hne, _⟩ | ⟨_, p, tr, hp, htr, rfl⟩
  · exact absurd hact hne
  have hrem : update_reminder_run_times st.reminders row.id none none =
      st.reminders.map (fun r =>
        if r.id = row.id then { r with last_run_at := none, next_run_at := none }
        else r) := rfl
  refine ⟨hrem, rfl, rfl, ⟨_, jobLookup_addJobReplace _ _ _⟩, ?_, ?_, ?_, ?_, ?_, ?_, ?_, ?_⟩
  · rw [hrem, List.map_map]
    exact List.map_congr_left (fun r _ => by by_cases hc : r.id = row.id <;> simp [hc])
  · rw [hrem, List.map_map]
    exact List.map_congr_left (fun r _ => by by_cases hc : r.id = row.id <;> simp [hc])
  · rw [hrem, List.map_map]
    exact List.map_congr_left (fun r _ => by by_cases hc : r.id = row.id <;> simp [hc])
  · rw [hrem, List.map_map]
    exact List.map_congr_left (fun r _ => by by_cases hc : r.id = row.id <;> simp [hc])
  · rw [hrem, List.map_map]
    exact List.map_congr_left (fun r _ => by by_cases hc : r.id = row.id <;> simp [hc])
  · rw [hrem, List.map_map]
    exact List.map_congr_left (fun r _ => by by_cases hc : r.id = row.id <;> simp [hc])
  · rw [hrem, List.map_map]
    exact List.map_congr_left (fun r _ => by by_cases hc : r.id = row.id <;> simp [hc])
  · intro r' hr' hid
    exact last_run_of_update hr' hid

/-! ## Claim C5 : inactive reminders have no installed job -/

/-- C5: calling schedule_one on a record whose active flag is not 1 installs
nothing and removes any job under the reminder key, and switching a reminder
off through the rem_off path removes its job and leaves the row inactive. -/
theorem c5_inactive_no_job :
    (∀ (resolveOk : String → Bool) (st : BotState) (row : Reminder) (chat : Nat),
      row.active ≠ 1 →
      schedule_one resolveOk st row chat =
        .ok { st with jobs := removeJob st.jobs (job_id_for row.user_id row.id) } ∧
      jobLookup (removeJob st.jobs (job_id_for row.user_id row.id))
        (job_id_for row.user_id row.id) = none) ∧
    (∀ (resolveOk : String → Bool) (st : BotState) (uid rid chat : Nat)
       (st' : BotState),
      st.reminders.any (fun r => r.user_id == uid && r.id == rid) = true →
      rem_toggle resolveOk st uid rid 0 chat = .ok st' →
      jobLookup st'.jobs (job_id_for uid rid) = none ∧
      ∀ r ∈ st'.reminders, r.user_id = uid → r.id = rid → r.active = 0) := by
  constructor
  · intro resolveOk st row chat h
    exact ⟨schedule_one_inactive_eq h, jobLookup_removeJob _ _⟩
  · intro resolveOk st uid rid chat st' hex h
    unfold rem_toggle at h
    dsimp only at h
    rw [if_neg (by simp [hex]), if_neg (by decide : ¬((0 : Nat) = 1))] at h
    cases h
    constructor
    · exact jobLookup_removeJob _ _
    · intro r hr huid hid
      unfold unschedule_one at hr
      dsimp only at hr
      unfold update_reminder_active at hr
      rcases List.mem_map.mp hr with ⟨r0, hr0, rfl⟩
      by_cases hcase : r0.user_id = uid ∧ r0.id = rid
      · rw [if_pos hcase]
      · rw [if_neg hcase] at huid hid ⊢
        exact absurd ⟨huid, hid⟩ hcase

/-- C5 witness: the inactive row yields only a job removal, and rem_off on
the concrete store leaves no job and an inactive row. -/
theorem c5_inactive_no_job_witness :
    (schedule_one (fun _ => true) wSt wRemOff 55 =
      .ok { wSt with jobs := removeJob wSt.jobs (job_id_for 7 1) } ∧
     jobLookup (removeJob wSt.jobs (job_id_for 7 1)) (job_id_for 7 1) = none) ∧
    (∃ st', rem_toggle (fun _ => true) wSt 7 1 0 55 = .ok st' ∧
      jobLookup st'.jobs (job_id_for 7 1) = none ∧
      st'.reminders.map Reminder.active = [0]) := by
  constructor
  · exact (c5_inactive_no_job.1 (fun _ => true) wSt wRemOff 55 (by decide))
  · refine ⟨{ wSt with reminders := [wRemOff], jobs := [] }, by decide, ?_, by decide⟩
    exact (c5_inactive_no_job.2 (fun _ => true) wSt 7 1 55 _ (by decide) (by decide)).1

/-! ## Claim C4 : last_run_at and delivery outcome -/

/-- C4 counterexample: when delivery fails, the dispatcher leaves the store
untouched — in particular last_run_at keeps its old value instead of being
set to the current time, contradicting the claimed unconditional update. -/
theorem c4_delivery_failure_counterexample :
    run_reminder wSt 1 55 "2026-02-03T10:00:00" false none = wSt ∧
    (run_reminder wSt 1 55 "2026-02-03T10:00:00" false none).reminders.map
      Reminder.last_run_at = [some "2020-01-01T00:00:00"] ∧
    (run_reminder wSt 1 55 "2026-02-03T10:00:00" false none).reminders.map
      Reminder.last_run_at ≠ [some "2026-02-03T10:00:00"] := by
  exact ⟨by decide, by decide, by decide⟩

/-- C4 amended: last_run_at is set to the current time exactly when delivery
succeeds; a failed delivery aborts the dispatcher before any bookkeeping, so
the whole state — records and jobs alike — is left unchanged. -/
theorem c4_last_run_update :
    (∀ (st : BotState) (rid chat : Nat) (now : String) (nextRun : Option String),
      run_reminder st rid chat now false nextRun = st) ∧
    (∀ (st : BotState) (rid chat : Nat) (now : String) (nextRun : Option String)
       (row : Reminder) (p : ParsedSchedule),
      get_reminder_by_id st rid = some row → row.active = 1 →
      parse_schedule row.schedule = .ok p →
      ∀ r' ∈ (run_reminder st rid chat now true nextRun).reminders,
        r'.id = row.id → r'.last_run_at = some now) := by
  constructor
  · intro st rid chat now nr
    unfold run_reminder
    cases h : get_reminder_by_id st rid with
    | none => rfl
    | some row =>
      dsimp only
      by_cases hact : row.active ≠ 1
      · rw [if_pos hact]
      · rw [if_neg hact, if_pos (by decide : (!false) = true)]
  · intro st rid chat now nr row p hfind hact hparse r' hr' hid
    unfold run_reminder at hr'
    rw [hfind] at hr'
    dsimp only at hr'
    rw [if_neg (by simp [hact]), if_neg (by decide : ¬((!true) = true))] at hr'
    rw [hparse] at hr'
    try dsimp only at hr'
    by_cases hk : p.kind = kindONCE
    · rw [if_pos hk] at hr'
      exact (last_run_of_update hr' hid).1
    · rw [if_neg hk] at hr'
      exact (last_run_of_update hr' hid).1

/-- C4 witness: the amended statement at the concrete store — delivery
failure leaves the store unchanged, successful delivery stamps last_run_at. -/
theorem c4_last_run_update_witness :
    run_reminder wSt 1 55 "2026-02-03T10:00:00" false none = wSt ∧
    (run_reminder wSt 1 55 "2026-02-03T10:00:00" true none).reminders.map
      Reminder.last_run_at = [some "2026-02-03T10:00:00"] := by
  refine ⟨c4_last_run_update.1 wSt 1 55 "2026-02-03T10:00:00" none, ?_⟩
  have happ := c4_last_run_update.2 wSt 1 55 "2026-02-03T10:00:00" none wRem
    ⟨kindEVERYDAY, some EVERYDAY_DOW, none, "08:00"⟩ (by decide) rfl (by decide)
  decide

/-- Explicit result of the dispatcher firing an active ONCE reminder with a
successful delivery. -/
theorem run_reminder_once_eq {st : BotState} {rid chat : Nat} {now : String}
    {nr : Option String} {row : Reminder} {p : ParsedSchedule}
    (hfind : get_reminder_by_id st rid = some row) (hact : row.active = 1)
    (hparse : parse_schedule row.schedule = .ok p) (hkind : p.kind = kindONCE) :
    run_reminder st rid chat now true nr =
      { reminders := update_reminder_run_times
          (update_reminder_active st.reminders row.user_id row.id 0) row.id
          (some now) none,
        chats := st.chats,
        jobs := removeJob st.jobs (job_id_for row.user_id row.id),
        sent := st.sent ++ [(row.id, chat, reminderText row)] } := by
  unfold run_reminder
  rw [hfind]
  dsimp only
  rw [if_neg (by simp [hact]), if_neg (by decide : ¬((!true) = true)), hparse]
  try dsimp only
  rw [if_pos hkind]

/-- The dispatcher never reactivates a reminder: if every row of an id is
inactive before a firing of any job, it stays inactive after it. -/
theorem run_reminder_inactive {st : BotState} {jr chat : Nat} {now : String}
    {ok : Bool} {nr : Option String} {rid : Nat} (hInv : inactiveFor st rid) :
    inactiveFor (run_reminder st jr chat now ok nr) rid := by
  unfold run_reminder
  cases hfind : get_reminder_by_id st jr with
  | none => exact hInv
  | some row =>
    dsimp only
    by_cases hact : row.active ≠ 1
    · rw [if_pos hact]
      exact hInv
    · rw [if_neg hact]
      cases ok with
      | false =>
        rw [if_pos (by decide)]
        exact hInv
      | true =>
        rw [if_neg (by decide)]
        try dsimp only
        cases hp : parse_schedule row.schedule with
        | error e => exact fun r hr hid => hInv r hr hid
        | ok p =>
          dsimp only
          by_cases hk : p.kind = kindONCE
          · rw [if_pos hk]
            intro r' hr' hid
            rcases mem_update_run_times hr' with ⟨r1, hr1, hid1, _, hact1⟩
            rcases mem_update_active hr1 with ⟨r0, hr0, hid0, hact0⟩
            rcases hact0 with h0 | h0
            · rw [hact1, h0]
              exact hInv r0 hr0 (by omega)
            · rw [hact1, h0]
              decide
          · rw [if_neg hk]
            intro r' hr' hid
            rcases mem_update_run_times hr' with ⟨r0, hr0, hid0, _, hact0⟩
            rw [hact0]
            exact hInv r0 hr0 (by omega)

/-- With the looked-up row inactive (or absent) the dispatcher does nothing. -/
theorem run_reminder_noop_of_inactive {st : BotState} {jr chat : Nat} {now : String}
    {ok : Bool} {nr : Option String}
    (h : ∀ row, get_reminder_by_id st jr = some row → row.active ≠ 1) :
    run_reminder st jr chat now ok nr = st := by
  unfold run_reminder
  cases hfind : get_reminder_by_id st jr with
  | none => rfl
  | some row =>
    dsimp only
    rw [if_pos (h row hfind)]

/-- The delivery log after a dispatcher run: unchanged, or extended by one
message of the looked-up row. -/
theorem run_reminder_sent_cases (st : BotState) (jr chat : Nat) (now : String)
    (ok : Bool) (nr : Option String) :
    (run_reminder st jr chat now ok nr).sent = st.sent ∨
    ∃ row, get_reminder_by_id st jr = some row ∧
      (run_reminder st jr chat now ok nr).sent =
        st.sent ++ [(row.id, chat, reminderText row)] := by
  unfold run_reminder
  cases hfind : get_reminder_by_id st jr with
  | none => exact Or.inl rfl
  | some row =>
    dsimp only
    by_cases hact : row.active ≠ 1
    · rw [if_pos hact]
      exact Or.inl rfl
    · rw [if_neg hact]
      cases ok with
      | false =>
        rw [if_pos (by decide)]
        exact Or.inl rfl
      | true =>
        rw [if_neg (by decide)]
        try dsimp only
        cases hp : parse_schedule row.schedule with
        | error e => exact Or.inr ⟨row, rfl, rfl⟩
        | ok p =>
          dsimp only
          by_cases hk : p.kind = kindONCE
          · rw [if_pos hk]
            exact Or.inr ⟨row, rfl, rfl⟩
          · rw [if_neg hk]
            exact Or.inr ⟨row, rfl, rfl⟩

theorem remFrame_schedule_one {resolveOk : String → Bool} {st : BotState}
    {row : Reminder} {chat : Nat} {st' : BotState}
    (h : schedule_one resolveOk st row chat = .ok st') :
    st'.sent = st.sent ∧
      ∀ r' ∈ st'.reminders, ∃ r ∈ st.reminders, r'.id = r.id ∧ r'.active = r.active := by
  rcases schedule_one_ok_cases h with ⟨_, rfl⟩ | ⟨_, p, tr, _, _, rfl⟩
  · exact ⟨rfl, fun r' hr' => ⟨r', hr', rfl, rfl⟩⟩
  · refine ⟨rfl, fun r' hr' => ?_⟩
    rcases mem_update_run_times hr' with ⟨r, hr, hid, _, hact⟩
    exact ⟨r, hr, hid, hact⟩

theorem remFrame_schedule_all {resolveOk : String → Bool} {st st' : BotState}
    (h : schedule_all_active resolveOk st = .ok st') :
    st'.sent = st.sent ∧
      ∀ r' ∈ st'.reminders, ∃ r ∈ st.reminders, r'.id = r.id ∧ r'.active = r.active := by
  unfold schedule_all_active at h
  suffices hgen : ∀ (rows : List Reminder) (acc acc' : BotState),
      (rows.foldlM (fun acc r =>
        match get_user_chat_id acc r.user_id with
        | none => Except.ok acc
        | some chat =>
          if chat = 0 then Except.ok acc else schedule_one resolveOk acc r chat)
        acc) = Except.ok acc' →
      acc'.sent = acc.sent ∧
      ∀ r' ∈ acc'.reminders, ∃ r ∈ acc.reminders, r'.id = r.id ∧ r'.active = r.active by
    exact hgen _ st st' h
  intro rows
  induction rows with
  | nil =>
    intro acc acc' hfold
    have hfold' : Except.ok acc = Except.ok acc' := hfold
    cases hfold'
    exact ⟨rfl, fun r' hr' => ⟨r', hr', rfl, rfl⟩⟩
  | cons r rows ih =>
    intro acc acc' hfold
    rw [List.foldlM_cons] at hfold
    cases hstep : (match get_user_chat_id acc r.user_id with
      | none => Except.ok acc
      | some chat =>
        if chat = 0 then Except.ok acc else schedule_one resolveOk acc r chat) with
    | error e =>
      rw [hstep] at hfold
      cases hfold
    | ok acc1 =>
      rw [hstep] at hfold
      have hframe1 : acc1.sent = acc.sent ∧
          ∀ r' ∈ acc1.reminders, ∃ r0 ∈ acc.reminders,
            r'.id = r0.id ∧ r'.active = r0.active := by
        cases hchat : get_user_chat_id acc r.user_id with
        | none =>
          rw [hchat] at hstep
          dsimp only at hstep
          cases hstep
          exact ⟨rfl, fun r' hr' => ⟨r', hr', rfl, rfl⟩⟩
        | some chat =>
          rw [hchat] at hstep
          dsimp only at hstep
          by_cases h0 : chat = 0
          · rw [if_pos h0] at hstep
            cases hstep
            exact ⟨rfl, fun r' hr' => ⟨r', hr', rfl, rfl⟩⟩
          · rw [if_neg h0] at hstep
            exact remFrame_schedule_one hstep
      have h2 := ih acc1 acc' hfold
      refine ⟨h2.1.trans hframe1.1, fun r' hr' => ?_⟩
      rcases h2.2 r' hr' with ⟨r1, hr1, hid1, hact1⟩
      rcases hframe1.2 r1 hr1 with ⟨r0, hr0, hid0, hact0⟩
      exact ⟨r0, hr0, hid1.trans hid0, hact1.trans hact0⟩

theorem stepOp_inactive_frame {st st' : BotState} {rid : Nat}
    (hInv : inactiveFor st rid) (op : Op) (h : stepOp st op = .ok st') :
    inactiveFor st' rid ∧ sentTo st' rid = sentTo st rid := by
  cases op with
  | restart =>
    cases h
    exact ⟨fun r hr hid => hInv r hr hid, rfl⟩
  | reconcile resolveOk =>
    have hframe := remFrame_schedule_all h
    refine ⟨?_, ?_⟩
    · intro r' hr' hid
      rcases hframe.2 r' hr' with ⟨r0, hr0, hid0, hact0⟩
      rw [hact0]
      exact hInv r0 hr0 (by omega)
    · unfold sentTo
      rw [hframe.1]
  | fire jid now ok nr =>
    unfold stepOp at h
    dsimp only at h
    cases hjl : jobLookup st.jobs jid with
    | none =>
      rw [hjl] at h
      dsimp only at h
      cases h
      exact ⟨hInv, rfl⟩
    | some j =>
      rw [hjl] at h
      dsimp only at h
      cases h
      refine ⟨run_reminder_inactive hInv, ?_⟩
      by_cases hj : j.rid = rid
      · subst hj
        rw [run_reminder_noop_of_inactive (fun row hrow =>
          hInv row (List.mem_of_find?_eq_some hrow)
            (by simpa using List.find?_some hrow))]
      · rcases run_reminder_sent_cases st j.rid j.chat_id now ok nr with hs | ⟨row, hrowf, hs⟩
        · unfold sentTo
          rw [hs]
        · have hrid : row.id = j.rid := by simpa using List.find?_some hrowf
          have hne : (row.id == rid) = false := by
            simp [hrid]
            omega
          unfold sentTo
          rw [hs, List.filter_append]
          simp [List.filter, hne]

theorem runOps_inactive (rid : Nat) : ∀ (ops : List Op) (st st2 : BotState),
    inactiveFor st rid → runOps st ops = .ok st2 →
    inactiveFor st2 rid ∧ sentTo st2 rid = sentTo st rid := by
  intro ops
  induction ops with
  | nil =>
    intro st st2 hInv h
    have h' : Except.ok st = Except.ok st2 := h
    cases h'
    exact ⟨hInv, rfl⟩
  | cons op ops ih =>
    intro st st2 hInv h
    have h' : (stepOp st op) >>= (fun st1 => runOps st1 ops) = .ok st2 := h
    cases hstep : stepOp st op with
    | error e =>
      rw [hstep] at h'
      cases h'
    | ok st1 =>
      rw [hstep] at h'
      have h1 := stepOp_inactive_frame hInv op hstep
      have h2 := ih st1 st2 h1.1 h'
      exact ⟨h2.1, h2.2.trans h1.2⟩

/-- C10 witness: scheduling the concrete active row nulls both run-time
columns, keeps the schedule column, and installs the job. -/
theorem c10_schedule_one_resets_bookkeeping_witness :
    schedule_one (fun _ => true) wSt wRem 55 = .ok wStAfter ∧
    wStAfter.reminders.map Reminder.last_run_at = [none] ∧
    wStAfter.reminders.map Reminder.next_run_at = [none] ∧
    wStAfter.reminders.map Reminder.schedule = wSt.reminders.map Reminder.schedule ∧
    (∃ j, jobLookup wStAfter.jobs (job_id_for 7 1) = some j) := by
  have h := c10_schedule_one_resets_bookkeeping (fun _ => true) wSt wRem 55 wStAfter
    rfl (by decide)
  exact ⟨by decide, by decide, by decide, by decide, h.2.2.2.1⟩

/-- C3: after an active ONCE reminder fires with a successful delivery, its
row is inactive with next_run_at NULL and last_run_at stamped, its job is
removed from the engine, and along any sequence of autonomous steps
(restarts, Boot Reconciler runs, further firings) the row stays inactive and
no further message of that reminder is ever delivered. -/
theorem c3_once_terminal :
    ∀ (st : BotState) (rid chat : Nat) (now : String) (nextRun : Option String)
      (row : Reminder) (p : ParsedSchedule),
      get_reminder_by_id st rid = some row → row.active = 1 →
      parse_schedule row.schedule = .ok p → p.kind = kindONCE →
      (st.reminders.map Reminder.id).Nodup →
      (∀ r ∈ (run_reminder st rid chat now true nextRun).reminders, r.id = rid →
        r.active = 0 ∧ r.next_run_at = none ∧ r.last_run_at = some now) ∧
      jobLookup (run_reminder st rid chat now true nextRun).jobs
        (job_id_for row.user_id row.id) = none ∧
      (∀ (ops : List Op) (st2 : BotState),
        runOps (run_reminder st rid chat now true nextRun) ops = .ok st2 →
        (∀ r ∈ st2.reminders, r.id = rid → r.active ≠ 1) ∧
        sentTo st2 rid = sentTo (run_reminder st rid chat now true nextRun) rid) := by
  intro st rid chat now nr row p hfind hact hparse hkind hnodup
  have hrowmem : row ∈ st.reminders := List.mem_of_find?_eq_some hfind
  have hrowid : row.id = rid := by simpa using List.find?_some hfind
  rw [run_reminder_once_eq hfind hact hparse hkind]
  have hconc1 : ∀ r ∈ update_reminder_run_times
      (update_reminder_active st.reminders row.user_id row.id 0) row.id
      (some now) none,
      r.id = rid → r.active = 0 ∧ r.next_run_at = none ∧ r.last_run_at = some now := by
    intro r' hr' hid
    have hlast := last_run_of_update hr' (by omega)
    unfold update_reminder_run_times at hr'
    rcases List.mem_map.mp hr' with ⟨r1, hr1, hreq⟩
    unfold update_reminder_active at hr1
    rcases List.mem_map.mp hr1 with ⟨r0, hr0, hreq1⟩
    have hid1 : r1.id = r0.id := by
      rw [← hreq1]
      by_cases hc : r0.user_id = row.user_id ∧ r0.id = row.id
      · rw [if_pos hc]
      · rw [if_neg hc]
    have hid' : r'.id = r1.id := by
      rw [← hreq]
      by_cases hc : r1.id = row.id
      · rw [if_pos hc]
      · rw [if_neg hc]
    have hr0id : r0.id = rid := by omega
    have hr0row : r0 = row :=
      List.inj_on_of_nodup_map hnodup hr0 hrowmem (by omega)
    have hcond : r0.user_id = row.user_id ∧ r0.id = row.id := by rw [hr0row]; exact ⟨rfl, rfl⟩
    have hr1eq : r1 = { r0 with active := 0 } := by rw [← hreq1, if_pos hcond]
    have hact' : r'.active = 0 := by
      have h1 : r'.active = r1.active := by
        rw [← hreq]
        by_cases hc : r1.id = row.id
        · rw [if_pos hc]
        · rw [if_neg hc]
      rw [h1, hr1eq]
    exact ⟨hact', hlast.2, hlast.1⟩
  refine ⟨hconc1, jobLookup_removeJob _ _, ?_⟩
  intro ops st2 hops
  have hInv1 : inactiveFor
      { reminders := update_reminder_run_times
          (update_reminder_active st.reminders row.user_id row.id 0) row.id
          (some now) none,
        chats := st.chats,
        jobs := removeJob st.jobs (job_id_for row.user_id row.id),
        sent := st.sent ++ [(row.id, chat, reminderText row)] } rid := by
    intro r hr hid
    rw [(hconc1 r hr hid).1]
    decide
  exact runOps_inactive rid ops _ st2 hInv1 hops

/-- C3 witness: the concrete ONCE reminder fires once, is deactivated and
unscheduled, and a restart followed by a Boot Reconciler run and another
firing attempt delivers nothing further. -/
theorem c3_once_terminal_witness :
    (run_reminder wStOnce 2 55 "2026-01-20T09:00:05" true none).reminders.map
      Reminder.active = [0] ∧
    (run_reminder wStOnce 2 55 "2026-01-20T09:00:05" true none).reminders.map
      Reminder.next_run_at = [none] ∧
    jobLookup (run_reminder wStOnce 2 55 "2026-01-20T09:00:05" true none).jobs
      (job_id_for 7 2) = none ∧
    runOps (run_reminder wStOnce 2 55 "2026-01-20T09:00:05" true none)
      [Op.restart, Op.reconcile (fun _ => true),
       Op.fire "rem_7_2" "2026-01-21T09:00:00" true none] = .ok wStOnceAfter ∧
    wStOnceAfter.reminders.map Reminder.active = [0] ∧
    sentTo wStOnceAfter 2 =
      sentTo (run_reminder wStOnce 2 55 "2026-01-20T09:00:05" true none) 2 := by
  have h := c3_once_terminal wStOnce 2 55 "2026-01-20T09:00:05" none wRemOnce
    ⟨kindONCE, none, some "2026-01-20", "09:00"⟩ (by decide) rfl (by decide) rfl
    (by decide)
  refine ⟨by decide, by decide, h.2.1, by decide, by decide, ?_⟩
  exact (h.2.2 [Op.restart, Op.reconcile (fun _ => true),
    Op.fire "rem_7_2" "2026-01-21T09:00:00" true none] wStOnceAfter (by decide)).2
